import Mathlib

/-!
Verification development for the Holex-Beast orchestration core
(`core/llm/router.py`, `core/agent/agent.py` and the shared types they use).

The Python code is shallowly embedded: pure functions become Lean
functions, stateful methods become explicit state-passing functions,
exceptions become `Except`, and the `asyncio` fan-out of tool calls is
modelled by an explicit completion schedule.
-/

namespace HolexBeast

/-! ### A small regex engine

`core/llm/router.py` classifies queries with four `re` patterns compiled
with `(?i)`.  We embed exactly the constructs those patterns use:
case-insensitive literals, the classes `\s`, `\d`, `\w` and explicit
sets, alternation, concatenation, `*`/`+`/`?` over character classes,
the word-boundary assertion `\b` and the end anchor `$`.  Matching is
modelled by enumerating all runs (pairs of consumed/remaining input), so
a pattern "matches" iff some run exists — which coincides with the
truthiness of `re.search` / `re.match` in the source. -/

inductive CAtom where
  | ch (c : Char)
  | ws
  | digit
  | word
deriving DecidableEq, Repr

/-- ASCII model of Python's `\w` (the inputs in this development are ASCII). -/
def isWordChar (c : Char) : Bool := c.isAlphanum || c == '_'

/-- ASCII model of Python's `\s`. -/
def isSpaceChar (c : Char) : Bool :=
  c == ' ' || c == '\t' || c == '\n' || c == '\r' || c == '\x0b' || c == '\x0c'

/-- Atom match; literals are stored lowercase because every source pattern
carries the `(?i)` flag. -/
def matchAtom : CAtom → Char → Bool
  | .ch a, c => a == c.toLower
  | .ws, c => isSpaceChar c
  | .digit, c => c.isDigit
  | .word, c => isWordChar c

inductive RE where
  | eps
  | cls (atoms : List CAtom)
  | alt (a b : RE)
  | cat (a b : RE)
  | star (atoms : List CAtom)
  | bound
  | eos
deriving Repr

/-- Word boundary `\b`: the characters on the two sides of the current
position differ in word-ness (ends of the string count as non-word). -/
def atBoundary (prev rest : List Char) : Bool :=
  Bool.xor
    (match prev with | [] => false | c :: _ => isWordChar c)
    (match rest with | [] => false | c :: _ => isWordChar c)

/-- All runs of `atoms*` starting from `(prev, rest)`; `prev` holds the
already-consumed input in reverse. -/
def starRuns (atoms : List CAtom) : List Char → List Char → List (List Char × List Char)
  | prev, [] => [(prev, [])]
  | prev, c :: rest =>
      (prev, c :: rest) ::
        (if atoms.any (fun a => matchAtom a c) then starRuns atoms (c :: prev) rest else [])

/-- All runs of a regex from a position: every way the regex can consume a
piece of `rest`.  Nonemptiness is match existence. -/
def runs : RE → List Char → List Char → List (List Char × List Char)
  | .eps, prev, rest => [(prev, rest)]
  | .cls _, _, [] => []
  | .cls atoms, prev, c :: rest =>
      if atoms.any (fun a => matchAtom a c) then [(c :: prev, rest)] else []
  | .alt a b, prev, rest => runs a prev rest ++ runs b prev rest
  | .cat a b, prev, rest => (runs a prev rest).flatMap (fun st => runs b st.1 st.2)
  | .star atoms, prev, rest => starRuns atoms prev rest
  | .bound, prev, rest => if atBoundary prev rest then [(prev, rest)] else []
  | .eos, prev, rest => if rest.isEmpty || rest == ['\n'] then [(prev, rest)] else []


/-- Match existence starting at any position at or after `(prev, rest)`. -/
def searchFrom (r : RE) : List Char → List Char → Bool
  | prev, [] => !(runs r prev []).isEmpty
  | prev, c :: rest => !(runs r prev (c :: rest)).isEmpty || searchFrom r (c :: prev) rest

/-- Model of the truthiness of Python `pattern.search(s)`. -/
def reSearch (r : RE) (s : String) : Bool := searchFrom r [] s.data

/-- Model of the truthiness of Python `pattern.match(s)` (anchored at 0). -/
def reMatch (r : RE) (s : String) : Bool := !(runs r [] s.data).isEmpty

/-! Combinators used to transcribe the source patterns. -/

def rchar (c : Char) : RE := .cls [.ch c.toLower]

def rstr (s : String) : RE := s.data.foldr (fun c acc => RE.cat (rchar c) acc) RE.eps

def rcat (rs : List RE) : RE := rs.foldr RE.cat RE.eps

def raltL : List RE → RE
  | [] => RE.cls []
  | [r] => r
  | r :: rs => RE.alt r (raltL rs)

def salts (ss : List String) : RE := raltL (ss.map rstr)

def ropt (r : RE) : RE := RE.alt r RE.eps

def plus1 (atoms : List CAtom) : RE := RE.cat (RE.cls atoms) (RE.star atoms)

def wsP : RE := plus1 [.ws]

def wsS : RE := RE.star [.ws]

def wordP : RE := plus1 [.word]

def digP : RE := plus1 [.digit]

def dig1 : RE := RE.cls [.digit]

/-- Helper for source sub-patterns of the shape `xyzs?`. -/
def pluralS (s : String) : RE := RE.cat (rstr s) (ropt (rchar 's'))

/-- Helper: the whole alternation group is wrapped in `\b( ... )\b`. -/
def bWrap (r : RE) : RE := rcat [RE.bound, r, RE.bound]

/-- Transcription of `_VISION_PATTERNS` from `core/llm/router.py`. -/
def VISION_PATTERNS : RE := bWrap (raltL [
  rstr "image",
  rstr "picture",
  rstr "photo",
  rcat [rstr "describe", wsP, rstr "this"],
  rcat [rstr "what", raltL [rstr "'s", rstr " is"], wsP, salts ["in", "on"], wsP,
        salts ["this", "the"], wsP, salts ["image", "photo", "picture"]],
  rcat [rstr "look", wsP, rstr "at"],
  rcat [rstr "analyze", wsP, salts ["this", "the"], wsP, salts ["image", "photo", "picture"]],
  rstr "ocr",
  rcat [rstr "read", wsP, salts ["this", "the"], wsP, salts ["text", "image"]],
  rstr "identify",
  rstr "recognize",
  rstr "vision",
  rstr "visual"])

/-- Transcription of `_SIMPLE_PATTERNS` (used anchored, via `re.match`,
with the trailing `[\s!?.]*$`). -/
def SIMPLE_PATTERNS : RE := rcat [
  raltL [
    rstr "hi", rstr "hello", rstr "hey", rstr "thanks", rstr "thank you",
    rstr "ok", rstr "okay", rstr "yes", rstr "no", rstr "bye",
    rcat [rstr "good", ropt (RE.cls [.ws]), salts ["morning", "night", "evening"]],
    rcat [rstr "what", raltL [rstr "'s", rstr " is"], rstr " ",
          salts ["your name", "the time", "the date", "up"]],
    rstr "how are you", rstr "who are you", rstr "tell me a joke"],
  RE.star [.ws, .ch '!', .ch '?', .ch '.'],
  RE.eos]

/-- Transcription of `_COMPLEX_PATTERNS`. -/
def COMPLEX_PATTERNS : RE := bWrap (raltL [
  rstr "explain", rstr "analyze", rstr "compare", rstr "contrast", rstr "summarize",
  rcat [rstr "write", wsP, ropt (rcat [rstr "a", wsP]),
        salts ["code", "essay", "report", "article", "story", "poem"]],
  rstr "debug", rstr "refactor", rstr "optimize", rstr "implement",
  rstr "architecture", rstr "algorithm", rstr "design pattern",
  rcat [rstr "step", ropt (RE.cls [.ws, .ch '-']), rstr "by",
        ropt (RE.cls [.ws, .ch '-']), rstr "step"],
  rcat [rstr "in", ropt (RE.cls [.ws, .ch '-']), rstr "depth"],
  rstr "detailed", rstr "comprehensive", rstr "thoroughly",
  rcat [rstr "pro", ropt (rchar 's'), wsP, rstr "and", wsP, rstr "con", ropt (rchar 's')],
  rcat [rstr "advantage", ropt (rchar 's'), wsP, rstr "and", wsP,
        rstr "disadvantage", ropt (rchar 's')],
  rstr "translate", rstr "convert", rstr "rewrite", rstr "improve", rstr "review",
  rstr "math", rstr "equation", rstr "calculus", rstr "physics", rstr "chemistry",
  rstr "science",
  rstr "research", rstr "thesis", rstr "academic",
  rcat [rstr "peer", ropt (RE.cls [.ws, .ch '-']), rstr "review"]])

/-- Transcription of `_TOOL_PATTERNS`. -/
def TOOL_PATTERNS : RE := bWrap (raltL [
  -- Web search
  rstr "search", rstr "google",
  rcat [rstr "look", wsP, rstr "up"],
  rcat [rstr "find", wsP, salts ["me", "out"]],
  -- Weather
  rcat [rstr "what", raltL [rstr "'s", rstr " is"], rstr " the weather"],
  -- Math
  rstr "calculate", rstr "compute", rstr "solve",
  rcat [salts ["what", "how much"], rstr " is ", dig1],
  -- System control: apps
  rcat [rstr "open", wsP, wordP], rcat [rstr "close", wsP, wordP],
  rcat [rstr "launch", wsP, wordP], rcat [rstr "start", wsP, wordP],
  rcat [rstr "run", wsP, wordP], rcat [rstr "quit", wsP, wordP],
  rcat [rstr "kill", wsP, wordP], rcat [rstr "exit", wsP, wordP],
  -- Volume / audio
  rstr "volume", rstr "mute", rstr "unmute", rstr "louder", rstr "quieter", rstr "sound",
  -- Brightness
  rstr "brightness", rstr "bright", rstr "dim",
  -- Screenshot
  rstr "screenshot", rcat [rstr "screen", wsS, rstr "shot"], rstr "capture", rstr "snap",
  -- Lock / sleep / power
  rcat [rstr "lock", wsP, salts ["screen", "computer", "pc"]],
  rstr "sleep", rcat [rstr "shut", wsS, rstr "down"], rstr "restart",
  rcat [rstr "power", wsP, rstr "off"],
  -- Browser / YouTube
  rcat [rstr "play", wsP],
  rcat [rstr "search", wsP, salts ["for", "on"], wsP, rstr "youtube"],
  rstr "youtube",
  rcat [rstr "google", wsP],
  rcat [rstr "open", wsP, salts ["website", "url", "link", "page"]],
  rcat [rstr "go", wsP, rstr "to", wsP, wordP],
  rstr "browse", rstr "navigate",
  -- WiFi / Bluetooth
  rstr "wifi", rstr "wi-fi", rstr "bluetooth", rstr "internet",
  -- File / folder
  rcat [rstr "open", wsP, salts ["folder", "file", "document", "desktop", "download"]],
  rcat [rstr "show", wsP, salts ["desktop", "files", "folder"]],
  -- Window management
  rstr "minimize", rstr "maximize",
  rcat [rstr "switch", wsP, salts ["to", "window"]],
  rcat [rstr "close", wsP, salts ["this", "window", "tab"]],
  -- Clipboard
  rstr "copy", rstr "clipboard", rstr "paste", rcat [rstr "type", wsP, wordP],
  -- Wikipedia
  rstr "wikipedia", rstr "wiki",
  rcat [rstr "who ", salts ["is", "was"]],
  rcat [rstr "when ", salts ["did", "was"]],
  -- Code
  rcat [rstr "run ", ropt (salts ["this ", "the "]), salts ["code", "script", "python"]],
  -- Timer / alarm / stopwatch
  rcat [rstr "set", wsP, ropt (rcat [rstr "a", wsP]), rstr "timer"],
  rstr "alarm", rstr "stopwatch", rstr "countdown",
  rcat [rstr "remind", wsP, rstr "me"],
  rcat [rstr "wake", wsP, rstr "me"],
  rcat [digP, wsS, raltL [pluralS "minute", pluralS "hour", pluralS "second"],
        wsP, rstr "timer"],
  -- Reminders
  rcat [rstr "remind", ropt (rstr "er")],
  rcat [rstr "don", ropt (rchar '\''), rstr "t", wsP,
        ropt (rcat [rstr "let", wsP, rstr "me", wsP]), rstr "forget"],
  rcat [rstr "remember", wsP, rstr "to"],
  -- Translation / conversion
  rstr "translate",
  rcat [rstr "translat", wordP],
  rcat [rstr "convert", wsP, dig1],
  rcat [rstr "how", wsP, salts ["many", "much"], wsP, wordP, wsP,
        salts ["in", "to"], wsP, wordP],
  rcat [digP, wsS, raltL [pluralS "mile", rstr "km", rstr "kg", pluralS "lb",
        pluralS "pound", rstr "celsius", rstr "fahrenheit", pluralS "meter"],
        wsP, salts ["in", "to"]],
  -- Dictionary
  rcat [rstr "define", wsP, wordP],
  rcat [rstr "meaning", wsP, rstr "of"],
  rcat [rstr "definition", wsP, rstr "of"],
  rcat [rstr "what", wsP, rstr "does", wsP, wordP, wsP, rstr "mean"],
  -- Notes / todos
  rcat [salts ["add", "create", "make", "take", "write"], wsP,
        ropt (rcat [rstr "a", wsP]), salts ["note", "todo", "to-do"]],
  rcat [salts ["my", "list", "show"], wsP,
        raltL [pluralS "note", pluralS "todo", pluralS "to-do"]],
  rcat [rstr "delete", wsP, salts ["note", "todo"]],
  rcat [rstr "complete", wsP, rstr "todo"],
  -- System info / processes
  rcat [rstr "system", wsP, rstr "info"],
  rstr "battery", rstr "processes",
  rcat [rstr "kill", wsP, rstr "process"],
  rcat [rstr "recycle", wsP, rstr "bin"],
  rstr "wallpaper",
  rcat [rstr "zip", wsP],
  rstr "unzip"])

/-- ASCII model of Python `str.strip()`. -/
def pyStrip (s : String) : String :=
  String.mk (((s.data.dropWhile isSpaceChar).reverse.dropWhile isSpaceChar).reverse)

/-- Decision chain of `classify_query` on the already-stripped text. -/
def classifyCore (text : String) (has_image : Bool) : String :=
  if has_image || reSearch VISION_PATTERNS text then "vision"
  else if reMatch SIMPLE_PATTERNS text then "simple"
  else if reSearch TOOL_PATTERNS text then "tool"
  else if reSearch COMPLEX_PATTERNS text then "complex"
  else if text.length > 500 then "complex"
  else "normal"

/-- Embedding of `classify_query` from `core/llm/router.py`: the text is
stripped first (`text = text.strip()`), then the tier checks run in order. -/
def classify_query (text : String) (has_image : Bool := false) : String :=
  classifyCore (pyStrip text) has_image

/-- Embedding of the nested dict lookup `_TIER_MODELS.get(tier, {}).get(provider)`
over the static table in `core/llm/router.py`. -/
def TIER_MODELS (tier provider : String) : Option String :=
  if tier == "simple" then
    if provider == "groq" then some "llama-3.1-8b-instant"
    else if provider == "gemini" then some "gemini-2.5-flash"
    else if provider == "ollama" then some "llama3.2:3b"
    else none
  else if tier == "tool" then
    if provider == "groq" then some "moonshotai/kimi-k2-instruct"
    else if provider == "gemini" then some "gemini-2.5-flash"
    else if provider == "ollama" then some "llama3.2:3b"
    else none
  else if tier == "complex" then
    if provider == "groq" then some "moonshotai/kimi-k2-instruct-0905"
    else if provider == "gemini" then some "gemini-2.5-pro"
    else if provider == "ollama" then some "llama3.1:8b"
    else none
  else if tier == "normal" then
    if provider == "groq" then some "moonshotai/kimi-k2-instruct"
    else if provider == "gemini" then some "gemini-2.5-flash"
    else if provider == "ollama" then some "llama3.2:3b"
    else none
  else if tier == "vision" then
    if provider == "groq" then some "meta-llama/llama-4-scout-17b-16e-instruct"
    else if provider == "gemini" then some "gemini-2.5-flash"
    else if provider == "ollama" then some "llama3.2:3b"
    else none
  else none

/-! ### Shared value types (`core/llm/base.py`, `core/agent/tools/base.py`) -/

inductive Role where
  | system
  | user
  | assistant
  | tool
deriving DecidableEq, Repr

/-- A multimodal content part (`{"type": "text"|"image_url", ...}` dict). -/
inductive ContentPart where
  | text (t : String)
  | image_url (url : String)
  | other
deriving DecidableEq, Repr

/-- `Message.content` is `str | list` in the source. -/
inductive MsgContent where
  | str (s : String)
  | parts (ps : List ContentPart)
deriving DecidableEq, Repr

/-- Key/value argument mapping; values are passed through opaquely by the
embedded code, so they are modelled as strings. -/
abbrev ArgsMap := List (String × String)

/-- A normalized tool-call dict as built by the agent:
`{"id", "type": "function", "function": {"name", "arguments": <json string>}}`. -/
structure ToolCallDict where
  id : String
  name : String
  argumentsJson : String
deriving DecidableEq, Repr

/-- Embedding of the `Message` dataclass (the `metadata` dict is never read
by the embedded code and is omitted). -/
structure Message where
  role : Role
  content : MsgContent
  name : Option String := none
  tool_calls : Option (List ToolCallDict) := none
  tool_call_id : Option String := none
deriving DecidableEq, Repr

def Message.system (content : String) : Message :=
  { role := .system, content := .str content }

def Message.user (content : String) : Message :=
  { role := .user, content := .str content }

def Message.user_with_image (text image_url : String) : Message :=
  { role := .user, content := .parts [.text text, .image_url image_url] }

def Message.assistant (content : String) : Message :=
  { role := .assistant, content := .str content }

def Message.tool (content : String) (name : String) (tool_call_id : String := "") : Message :=
  { role := .tool, content := .str content, name := some name,
    tool_call_id := some tool_call_id }

/-- Contents of the JSON text found under `function.arguments`:
either it parses to a mapping or `json.loads` raises. -/
inductive ArgsJson where
  | parses (args : ArgsMap)
  | malformed (raw : String)
deriving DecidableEq, Repr

/-- OpenAI/Groq wire shape: the `function` dict of a tool-call entry. -/
structure RawFunction where
  name : Option String := none
  arguments : Option ArgsJson := none
deriving DecidableEq, Repr

/-- OpenAI/Groq wire shape: one entry of `message.tool_calls`.
`none` fields model absent dict keys. -/
structure RawToolCall where
  id : Option String := none
  function : Option RawFunction := none
deriving DecidableEq, Repr

/-- OpenAI/Groq wire shape: `choices[0].message`. -/
structure RawMessage where
  tool_calls : List RawToolCall := []
deriving DecidableEq, Repr

structure RawChoice where
  message : Option RawMessage := none
deriving DecidableEq, Repr

/-- Gemini wire shape: `parts[i].functionCall` (note: no id). -/
structure RawFunctionCall where
  name : Option String := none
  args : ArgsMap := []
deriving DecidableEq, Repr

structure RawPart where
  functionCall : Option RawFunctionCall := none
deriving DecidableEq, Repr

structure RawContent where
  parts : List RawPart := []
deriving DecidableEq, Repr

structure RawCandidate where
  content : Option RawContent := none
deriving DecidableEq, Repr

/-- The backend-native `raw_response` dict, restricted to the two wire
shapes `_extract_tool_calls` reads. -/
structure RawResponse where
  choices : List RawChoice := []
  candidates : List RawCandidate := []
deriving DecidableEq, Repr

/-- Embedding of the `LLMResponse` dataclass. -/
structure LLMResponse where
  content : String
  model : String
  provider : String
  tokens_used : Nat := 0
  prompt_tokens : Nat := 0
  completion_tokens : Nat := 0
  latency_ms : Nat := 0
  finish_reason : String := "stop"
  raw_response : Option RawResponse := none
deriving DecidableEq, Repr

/-- Embedding of the `StreamChunk` dataclass. -/
structure StreamChunk where
  content : String
  is_final : Bool := false
  model : String := ""
  provider : String := ""
deriving DecidableEq, Repr

/-! ### Exceptions (`core/exceptions.py`)

`RateLimitError ⊂ LLMError ⊂ HolexError ⊂ Exception`;
`AllProvidersFailedError ⊂ LLMError` and its constructor takes no
arguments (message fixed to "All LLM providers failed"). -/

inductive PyErr where
  | rateLimit (provider : String) (retry_after : Nat)
  | llm (message : String)
  | allProvidersFailed
  | other (message : String)
deriving DecidableEq, Repr

/-- Does `except RateLimitError` catch this exception? -/
def PyErr.isRateLimit : PyErr → Bool
  | .rateLimit _ _ => true
  | _ => false

/-- Does `except LLMError` catch this exception? -/
def PyErr.isLLMError : PyErr → Bool
  | .rateLimit _ _ => true
  | .llm _ => true
  | .allProvidersFailed => true
  | .other _ => false

def PyErr.message : PyErr → String
  | .rateLimit p _ => "Rate limit exceeded on " ++ p
  | .llm m => m
  | .allProvidersFailed => "All LLM providers failed"
  | .other m => m

/-- Model of Python `str(e)` (a `HolexError` renders as its message). -/
def PyErr.toStr (e : PyErr) : String := e.message

/-! ### Router (`core/llm/router.py`) -/

/-- The configuration fields the router reads (`core/config.py` defaults). -/
structure AppSettings where
  temperature : Rat := 7/10
  max_tokens : Nat := 4096
  default_provider : String := "groq"
  fallback_provider : String := "gemini"
  groq_default_model : String := "moonshotai/kimi-k2-instruct"
  gemini_default_model : String := "gemini-2.5-flash"
  ollama_default_model : String := "llama3.2:3b"
deriving DecidableEq, Repr

/-- Backend-agnostic function-calling schema
(`{"type": "function", "function": {name, description, parameters}}`). -/
structure ToolSchema where
  name : String
  description : String
  parameters : ArgsMap
deriving DecidableEq, Repr

/-- Arguments of one provider-adapter `generate` call. -/
structure GenRequest where
  messages : List Message
  model : Option String
  temperature : Rat
  max_tokens : Nat
  tools : Option (List ToolSchema)

/-- Arguments of one provider-adapter `stream` call. -/
structure StreamRequest where
  messages : List Message
  model : Option String
  temperature : Rat
  max_tokens : Nat

/-- A provider adapter, modelled by its observable behaviour: `generate`
returns a response or raises; `stream` yields some chunks and then either
finishes cleanly (`none`) or raises (`some e`). -/
structure BaseLLMProvider where
  generate : GenRequest → Except PyErr LLMResponse
  streamRun : StreamRequest → List StreamChunk × Option PyErr

/-- Ordered-dict lookup for `self._providers[name]`. -/
def lookupProv (ps : List (String × BaseLLMProvider)) (n : String) : Option BaseLLMProvider :=
  (ps.find? (fun q => q.1 == n)).map (fun q => q.2)

/-- Router state (`LLMRouter.__init__` / `initialize`).  The running
statistics counters are omitted: no claim concerns them. -/
structure LLMRouter where
  settings : AppSettings := {}
  providers : List (String × BaseLLMProvider)
  current_provider : Option String := none
  current_model : Option String := none
  failover_order : List String := []

/-- Embedding of `LLMRouter._get_default_model`. -/
def LLMRouter.get_default_model (r : LLMRouter) (provider : String) : String :=
  if provider == "groq" then r.settings.groq_default_model
  else if provider == "gemini" then r.settings.gemini_default_model
  else if provider == "ollama" then r.settings.ollama_default_model
  else ""

/-- Embedding of `LLMRouter._build_failover_order`. -/
def LLMRouter.build_failover_order (r : LLMRouter) : List String :=
  let priority := [r.settings.default_provider, r.settings.fallback_provider]
  let all_providers := ["groq", "gemini", "ollama"]
  (priority ++ all_providers).foldl
    (fun order p =>
      if (lookupProv r.providers p).isSome && !(order.contains p) then order ++ [p] else order)
    []

/-- Python `a or b` on an optional string (`None` and `""` are falsy). -/
def pyOrStrOpt (a b : Option String) : Option String :=
  match a with
  | some s => if s == "" then b else some s
  | none => b

/-- Latest USER message's joined text parts and image flag, as extracted by
`generate`/`stream` for auto-routing (`router.py` lines 308-325). -/
def latestUserTextImage (messages : List Message) : String × Bool :=
  match messages.reverse.find? (fun m => m.role == Role.user) with
  | none => ("", false)
  | some m =>
    match m.content with
    | .parts ps =>
        (String.intercalate " "
          (ps.filterMap (fun p => match p with | .text t => some t | _ => none)),
         ps.any (fun p => match p with | .image_url _ => true | _ => false))
    | .str s => (s, false)

/-- Latest USER message's content when it is a plain string (the failover
branch of `generate`, lines 357-361, ignores multimodal content). -/
def latestUserStrText (messages : List Message) : String :=
  match messages.reverse.find? (fun m => m.role == Role.user) with
  | none => ""
  | some m => match m.content with | .str s => s | .parts _ => ""

/-- The auto-route override of the model (`router.py` lines 308-331,
duplicated verbatim in `stream`); `if auto_route and provider:` treats a
missing or empty provider string as falsy. -/
def autoRoutedModel (provider : Option String) (model : Option String)
    (messages : List Message) (auto_route : Bool) : Option String :=
  if auto_route then
    match provider with
    | none => model
    | some prov =>
      if prov == "" then model
      else
        let ti := latestUserTextImage messages
        if ti.1 ≠ "" || ti.2 then
          let tier := classify_query ti.1 ti.2
          let routed : Option String :=
            match TIER_MODELS tier prov with
            | some m => some m
            | none => model
          let truthy : Bool := match routed with | some s => s != "" | none => false
          if truthy && routed ≠ model then routed else model
        else model
  else model

/-- Model of `[provider] if provider else []` (`None` and `""` falsy). -/
def pyTruthyList (provider : Option String) : List String :=
  match provider with
  | some p => if p == "" then [] else [p]
  | none => []

/-- Build of `providers_to_try`: `[provider] if provider else []` extended
by a generator over `failover_order` whose membership test sees the list
as it grows. -/
def providersToTry (provider : Option String) (failover_order : List String) : List String :=
  failover_order.foldl
    (fun acc p => if acc.contains p then acc else acc ++ [p])
    (pyTruthyList provider)

/-- The tier-correct model re-derived for a failover candidate
(`router.py` lines 356-363). -/
def failoverUseModel (r : LLMRouter) (messages : List Message) (prov_name : String) : String :=
  let user_text := latestUserStrText messages
  let tier := if user_text ≠ "" then classify_query user_text else "normal"
  match TIER_MODELS tier prov_name with
  | some m => m
  | none => r.get_default_model prov_name

/-- Error-list entry recorded for a failing candidate (the three `except`
branches of `generate`). -/
def renderErr (prov_name : String) (e : PyErr) : String :=
  if e.isRateLimit then prov_name ++ ": Rate limited"
  else if e.isLLMError then prov_name ++ ": " ++ e.message
  else prov_name ++ ": " ++ e.toStr

/-- Events emitted on the bus by the router (payloads restricted to the
fields the source passes). -/
inductive Ev where
  | llm_request (provider model : Option String) (message_count : Nat)
  | llm_response (provider model : String) (tokens latency : Nat)
  | llm_error (errors : List String)
  | llm_stream_start (provider model : Option String)
  | llm_stream_chunk (content provider : String)
  | llm_stream_end (provider : String) (model : Option String)
deriving DecidableEq, Repr

/-- One provider attempt made by `generate`: which provider, which model
argument it was invoked with, and its outcome. -/
structure Attempt where
  provider : String
  model : Option String
  outcome : Except PyErr LLMResponse

/-- Result of one `LLMRouter.generate` call: the returned response or the
raised exception, the recorded error list, the attempt trace and the bus
events. -/
structure GenerateResult where
  result : Except PyErr LLMResponse
  errors : List String
  attempts : List Attempt
  events : List Ev

/-- The failover loop of `generate` (`router.py` lines 347-401). -/
def tryProvidersG (r : LLMRouter) (messages : List Message) (origProvider : Option String)
    (model : Option String) (temperature : Rat) (max_tokens : Nat)
    (tools : Option (List ToolSchema)) :
    List String → List String → List Attempt → GenerateResult
  | [], errors, attempts =>
      { result := .error .allProvidersFailed, errors := errors, attempts := attempts,
        events := [.llm_error errors] }
  | prov_name :: rest, errors, attempts =>
      match lookupProv r.providers prov_name with
      | none =>
          tryProvidersG r messages origProvider model temperature max_tokens tools
            rest errors attempts
      | some prov =>
        let use_model : Option String :=
          if some prov_name == origProvider then model
          else some (failoverUseModel r messages prov_name)
        match prov.generate
            { messages := messages, model := use_model, temperature := temperature,
              max_tokens := max_tokens, tools := tools } with
        | .ok response =>
            { result := .ok response, errors := errors,
              attempts := attempts ++ [⟨prov_name, use_model, .ok response⟩],
              events := [.llm_response prov_name response.model
                          response.tokens_used response.latency_ms] }
        | .error e =>
            tryProvidersG r messages origProvider model temperature max_tokens tools
              rest (errors ++ [renderErr prov_name e])
              (attempts ++ [⟨prov_name, use_model, .error e⟩])

/-- Embedding of `LLMRouter.generate`. -/
def LLMRouter.generate (r : LLMRouter) (messages : List Message)
    (provider : Option String := none) (model : Option String := none)
    (temperature : Option Rat := none) (max_tokens : Option Nat := none)
    (tools : Option (List ToolSchema) := none) (auto_route : Bool := true) :
    GenerateResult :=
  let provider := pyOrStrOpt provider r.current_provider
  let model := pyOrStrOpt model r.current_model
  let temperature := temperature.getD r.settings.temperature
  let max_tokens := max_tokens.getD r.settings.max_tokens
  let model := autoRoutedModel provider model messages auto_route
  let providers_to_try := providersToTry provider r.failover_order
  let res := tryProvidersG r messages provider model temperature max_tokens tools
    providers_to_try [] []
  { res with events := Ev.llm_request provider model messages.length :: res.events }

/-- One attempt made by `stream`: provider plus the model argument used. -/
structure StreamAttempt where
  provider : String
  model : Option String
deriving DecidableEq, Repr

/-- Result of one `LLMRouter.stream` call: chunks yielded to the caller,
the terminal outcome, the attempt trace and the bus events. -/
structure StreamResult where
  yielded : List StreamChunk
  result : Except PyErr Unit
  attempts : List StreamAttempt
  events : List Ev

/-- Bus events emitted while forwarding a provider's chunks. -/
def chunkEvents (prov_name : String) (use_model : Option String)
    (chunks : List StreamChunk) : List Ev :=
  chunks.flatMap (fun c =>
    (if c.content ≠ "" then [Ev.llm_stream_chunk c.content prov_name] else []) ++
    (if c.is_final then [Ev.llm_stream_end prov_name use_model] else []))

/-- The failover loop of `stream` (`router.py` lines 456-491): only
`RateLimitError` and `LLMError` are caught; any other exception
propagates to the caller. -/
def tryProvidersS (r : LLMRouter) (messages : List Message) (origProvider : Option String)
    (model : Option String) (temperature : Rat) (max_tokens : Nat) :
    List String → List StreamChunk → List Ev → List StreamAttempt → StreamResult
  | [], yielded, events, attempts =>
      { yielded := yielded, result := .error .allProvidersFailed, attempts := attempts,
        events := events ++ [.llm_error ["All providers failed"]] }
  | prov_name :: rest, yielded, events, attempts =>
      match lookupProv r.providers prov_name with
      | none => tryProvidersS r messages origProvider model temperature max_tokens
          rest yielded events attempts
      | some prov =>
        let use_model : Option String :=
          if some prov_name == origProvider then model
          else some (r.get_default_model prov_name)
        let run := prov.streamRun
          { messages := messages, model := use_model, temperature := temperature,
            max_tokens := max_tokens }
        let yielded := yielded ++ run.1
        let events := events ++ chunkEvents prov_name use_model run.1
        let attempts := attempts ++ [⟨prov_name, use_model⟩]
        match run.2 with
        | none => { yielded := yielded, result := .ok (), attempts := attempts,
                    events := events }
        | some e =>
          if e.isRateLimit || e.isLLMError then
            tryProvidersS r messages origProvider model temperature max_tokens
              rest yielded events attempts
          else
            { yielded := yielded, result := .error e, attempts := attempts,
              events := events }

/-- Embedding of `LLMRouter.stream` (resolution and auto-route are the
same as `generate`; the failover model is `_get_default_model`). -/
def LLMRouter.stream (r : LLMRouter) (messages : List Message)
    (provider : Option String := none) (model : Option String := none)
    (temperature : Option Rat := none) (max_tokens : Option Nat := none)
    (auto_route : Bool := true) : StreamResult :=
  let provider := pyOrStrOpt provider r.current_provider
  let model := pyOrStrOpt model r.current_model
  let temperature := temperature.getD r.settings.temperature
  let max_tokens := max_tokens.getD r.settings.max_tokens
  let model := autoRoutedModel provider model messages auto_route
  let providers_to_try := providersToTry provider r.failover_order
  let res := tryProvidersS r messages provider model temperature max_tokens
    providers_to_try [] [] []
  { res with events := Ev.llm_stream_start provider model :: res.events }

/-! ### Tools (`core/agent/tools/base.py`) -/

/-- Python `a or b` on an optional string against a string default. -/
def pyOrStr (a : Option String) (b : String) : String :=
  match a with
  | some s => if s == "" then b else s
  | none => b

/-- Embedding of the `ToolResult` dataclass (`data: Any` is opaque to the
embedded code and modelled as an optional string). -/
structure ToolResult where
  success : Bool
  output : String
  data : Option String := none
  error : Option String := none
deriving DecidableEq, Repr

/-- Embedding of `ToolResult.__str__`. -/
def ToolResult.toStr (r : ToolResult) : String :=
  if r.success then r.output else "Error: " ++ pyOrStr r.error r.output

/-- A registered tool, modelled by its metadata and the observable
behaviour of `execute` (`Except` is an exception escaping the body). -/
structure BaseTool where
  name : String
  description : String
  parameters : ArgsMap
  execute : ArgsMap → Except String ToolResult

/-- Embedding of `BaseTool.to_openai_tool`. -/
def BaseTool.to_openai_tool (t : BaseTool) : ToolSchema :=
  { name := t.name, description := t.description, parameters := t.parameters }

/-! ### Agent (`core/agent/agent.py`) -/

def MAX_ITERATIONS : Nat := 5

/-- Agent state: registration dict of tools, conversation history, the
system message and the history cap (`self._max_history = 50`).  The router
dependency is passed to `process` as a function, mirroring the injected
`self.router`. -/
structure HolexAgent where
  tools : List (String × BaseTool)
  system_message : Message
  history : List Message := []
  max_history : Nat := 50

def lookupTool (ts : List (String × BaseTool)) (n : String) : Option BaseTool :=
  (ts.find? (fun q => q.1 == n)).map (fun q => q.2)

/-- Embedding of `HolexAgent.get_tool_schemas`. -/
def HolexAgent.get_tool_schemas (a : HolexAgent) : List ToolSchema :=
  a.tools.map (fun t => t.2.to_openai_tool)

/-- `RAG_CONTEXT_PROMPT.format(context=ctx)` from `core/agent/prompts.py`. -/
def ragContextMessage (ctx : String) : Message :=
  Message.system ("## Relevant Context from User's Documents:\n" ++ ctx ++
    "\n\n---\nUse the above context to answer the user's question. If the context doesn't\ncontain relevant information, say so and answer from your general knowledge\ninstead. Always indicate when you're using document context vs general knowledge.")

/-- Python list slice `l[-n:]`. -/
def pyLastSlice (n : Nat) (l : List Message) : List Message := l.drop (l.length - n)

/-- Embedding of `HolexAgent._build_messages`. -/
def HolexAgent.build_messages (a : HolexAgent) (rag_context : Option String) : List Message :=
  [a.system_message] ++
    (match rag_context with
     | some ctx => if ctx != "" then [ragContextMessage ctx] else []
     | none => []) ++
    pyLastSlice a.max_history a.history

/-- Embedding of `HolexAgent._trim_history`. -/
def trimHistory (max_history : Nat) (h : List Message) : List Message :=
  if h.length > max_history then h.drop (h.length - max_history) else h

/-- One extracted tool-call dict `{"id", "name", "arguments"}`;
`id = none` models a dict with no `"id"` key (the Gemini shape). -/
structure ExtractedToolCall where
  id : Option String
  name : String
  arguments : ArgsMap
deriving DecidableEq, Repr

/-- `json.loads(func.get("arguments", "{}"))` with the `JSONDecodeError`
fallback to `{}`. -/
def parseArgsJson : Option ArgsJson → ArgsMap
  | none => []
  | some (.parses m) => m
  | some (.malformed _) => []

/-- Embedding of `HolexAgent._extract_tool_calls`: OpenAI/Groq shape
first; the Gemini shape only if the first produced nothing. -/
def extract_tool_calls (raw : RawResponse) : List ExtractedToolCall :=
  let fromChoices : List ExtractedToolCall :=
    match raw.choices with
    | [] => []
    | choice :: _ =>
      (choice.message.getD {}).tool_calls.map (fun call =>
        let func := call.function.getD {}
        { id := some (call.id.getD ""),
          name := func.name.getD "",
          arguments := parseArgsJson func.arguments })
  let fromCandidates : List ExtractedToolCall :=
    match raw.candidates with
    | [] => []
    | cand :: _ =>
      (cand.content.getD {}).parts.filterMap (fun part =>
        match part.functionCall with
        | some fc => some { id := none, name := fc.name.getD "", arguments := fc.args }
        | none => none)
  if fromChoices.isEmpty then fromCandidates else fromChoices

/-- Model of `json.dumps` on a string-to-string mapping. -/
def dumpsArgs (m : ArgsMap) : String :=
  "\x7b" ++
    String.intercalate ", " (m.map (fun p => "\"" ++ p.1 ++ "\": \"" ++ p.2 ++ "\"")) ++
    "\x7d"

/-- The id-normalization loop of `process`/`stream_process`
(`agent.py` lines 207-218): calls with a missing or empty id are patched
in place with `"call_" + uuid4().hex[:8]`; the uuid draws are modelled by
the injected stream `uuids`, consumed left to right (`k` is the index of
the next draw).  Returns the next draw index, the patched dicts, and the
normalized tool-call dicts. -/
def normalizeToolCalls (uuids : Nat → String) (k : Nat) :
    List ExtractedToolCall → Nat × List ExtractedToolCall × List ToolCallDict
  | [] => (k, [], [])
  | tc :: rest =>
    let step : Nat × ExtractedToolCall :=
      match tc.id with
      | some s =>
          if s == "" then (k + 1, { tc with id := some ("call_" ++ uuids k) }) else (k, tc)
      | none => (k + 1, { tc with id := some ("call_" ++ uuids k) })
    let rec' := normalizeToolCalls uuids step.1 rest
    (rec'.1, step.2 :: rec'.2.1,
     ⟨step.2.id.getD "", step.2.name, dumpsArgs step.2.arguments⟩ :: rec'.2.2)

/-- Embedding of `HolexAgent._execute_tool`: an unregistered name or an
exception inside `execute` becomes a failed `ToolResult`. -/
def HolexAgent.execute_tool (a : HolexAgent) (tool_name : String) (args : ArgsMap) :
    ToolResult :=
  match lookupTool a.tools tool_name with
  | none =>
      { success := false, output := "",
        error := some ("Tool '" ++ tool_name ++ "' not found") }
  | some tool =>
    match tool.execute args with
    | .ok r => r
    | .error e => { success := false, output := "", error := some e }

/-- Completion events of the `asyncio.gather` fan-out: tasks finish in the
order given by `sched` (a permutation of the task indices) and each
completion carries its task index. -/
def completionEvents (exec : ExtractedToolCall → ToolResult)
    (calls : List ExtractedToolCall) (sched : List Nat) : List (Nat × ToolResult) :=
  sched.map (fun i => (i, exec (calls.getD i ⟨none, "", []⟩)))

/-- `asyncio.gather` returns results positionally: slot `i` holds task
`i`'s result no matter when it finished. -/
def gatherResults (exec : ExtractedToolCall → ToolResult)
    (calls : List ExtractedToolCall) (sched : List Nat) : List ToolResult :=
  (List.range calls.length).map (fun i =>
    match (completionEvents exec calls sched).find? (fun ev => ev.1 == i) with
    | some ev => ev.2
    | none => { success := false, output := "" })

/-- The Tool-role messages appended for the `(call, result)` pairs of one
iteration (`agent.py` lines 240-253). -/
def toolResponseMessages (calls : List ExtractedToolCall) (results : List ToolResult) :
    List Message :=
  (calls.zip results).map (fun p => Message.tool p.2.toStr p.1.name (p.1.id.getD ""))

/-- Which of the three exits of `process` produced the returned string
(observability tag; the source distinguishes them by control flow). -/
inductive TermKind where
  | finalAnswer
  | exhausted
  | errored
deriving DecidableEq, Repr

/-- Result of one `HolexAgent.process` call: the returned text, the new
`self._history`, the final outbound message list, the number of
`Router.generate` calls made, and which exit path returned. -/
structure ProcessResult where
  result : String
  history : List Message
  messages : List Message
  routerCalls : Nat
  terminal : TermKind
deriving DecidableEq, Repr

/-- The fixed message returned when the loop exhausts `MAX_ITERATIONS`. -/
def exhaustedMessage : String :=
  "I've done extensive research but couldn't finalize an answer. Here's what I found so far."

/-- The think-act-observe loop of `HolexAgent.process` (lines 175-265).
`remaining` counts loop iterations left, `iter` indexes the per-iteration
completion schedule, `uuidK` the uuid stream, `calls` the router calls so
far.  Tool executions inside `_execute_tool` are total (every exception is
converted there), so the `isinstance(result, Exception)` conversion after
`gather(..., return_exceptions=True)` has nothing left to convert. -/
def processLoop (routerGen : List Message → List ToolSchema → Except PyErr LLMResponse)
    (a : HolexAgent) (uuids : Nat → String) (scheds : Nat → List Nat) :
    Nat → Nat → Nat → Nat → List Message → List Message → ProcessResult
  | 0, _, _, calls, messages, history =>
      { result := exhaustedMessage, history := history, messages := messages,
        routerCalls := calls, terminal := .exhausted }
  | remaining + 1, iter, uuidK, calls, messages, history =>
      match routerGen messages a.get_tool_schemas with
      | .error e =>
          let error_msg := "I encountered an error: " ++ e.toStr ++
            ". Let me try to help anyway."
          { result := error_msg, history := history ++ [Message.assistant error_msg],
            messages := messages, routerCalls := calls + 1, terminal := .errored }
      | .ok response =>
          let tool_calls := extract_tool_calls (response.raw_response.getD {})
          if tool_calls.isEmpty then
            { result := response.content,
              history := trimHistory a.max_history
                (history ++ [Message.assistant response.content]),
              messages := messages, routerCalls := calls + 1, terminal := .finalAnswer }
          else
            let norm := normalizeToolCalls uuids uuidK tool_calls
            let assistant_msg :=
              { Message.assistant response.content with tool_calls := some norm.2.2 }
            let messages := messages ++ [assistant_msg]
            let results := gatherResults
              (fun tc => a.execute_tool tc.name tc.arguments) norm.2.1 (scheds iter)
            processLoop routerGen a uuids scheds remaining (iter + 1) norm.1 (calls + 1)
              (messages ++ toolResponseMessages norm.2.1 results) history

/-- Embedding of `HolexAgent.process`: append the user message to history,
build the outbound list, then run the loop. -/
def HolexAgent.process (a : HolexAgent)
    (routerGen : List Message → List ToolSchema → Except PyErr LLMResponse)
    (uuids : Nat → String) (scheds : Nat → List Nat)
    (user_message : String) (rag_context : Option String := none) : ProcessResult :=
  let a' : HolexAgent := { a with history := a.history ++ [Message.user user_message] }
  let messages := a'.build_messages rag_context
  processLoop routerGen a' uuids scheds MAX_ITERATIONS 0 0 0 messages a'.history

/-- The think-act-observe loop of `HolexAgent.stream_process` (lines
281-329): the same tool-resolution loop as `process`, except that it
produces the accumulated outbound message list rather than a final answer
(`break` when the response carries no tool calls, or falling through once
`MAX_ITERATIONS` is exhausted — there is no exhausted-message return
here), and an exception raised by `router.generate` escapes to the single
`except` handler of `stream_process`. -/
def streamLoop (routerGen : List Message → List ToolSchema → Except PyErr LLMResponse)
    (a : HolexAgent) (uuids : Nat → String) (scheds : Nat → List Nat) :
    Nat → Nat → Nat → List Message → Except PyErr (List Message)
  | 0, _, _, messages => .ok messages
  | remaining + 1, iter, uuidK, messages =>
      match routerGen messages a.get_tool_schemas with
      | .error e => .error e
      | .ok response =>
          let tool_calls := extract_tool_calls (response.raw_response.getD {})
          if tool_calls.isEmpty then .ok messages
          else
            let norm := normalizeToolCalls uuids uuidK tool_calls
            let assistant_msg :=
              { Message.assistant response.content with tool_calls := some norm.2.2 }
            let messages := messages ++ [assistant_msg]
            let results := gatherResults
              (fun tc => a.execute_tool tc.name tc.arguments) norm.2.1 (scheds iter)
            streamLoop routerGen a uuids scheds remaining (iter + 1) norm.1
              (messages ++ toolResponseMessages norm.2.1 results)

/-- Result of one `HolexAgent.stream_process` call: the chunk texts
yielded to the caller, the text of the assistant entry appended to history
(the accumulated `full_response` on success, the error message on
failure), the new `self._history`, and which exit path finished (only
`finalAnswer` and `errored` occur: exhausting the loop still streams). -/
structure StreamProcessResult where
  yielded : List String
  final : String
  history : List Message
  terminal : TermKind
deriving DecidableEq, Repr

/-- Embedding of `HolexAgent.stream_process` (lines 267-344): append the
user message, run the tool loop, then stream the final response through
`router.stream`.  The stream is modelled by the oracle `routerStream`,
which returns the chunks the generator produces and, optionally, the
exception it then raises (the same shape as `streamRun` of the provider
embedding).  Chunks with falsy (empty) content are neither accumulated
into `full_response` nor yielded.  On success the accumulated
`full_response` is appended to history and the history trimmed; any
exception — from `router.generate` inside the loop or from the stream —
reaches the single `except` handler, which yields and appends
`"Sorry, I encountered an error: {e}"` without trimming. -/
def HolexAgent.stream_process (a : HolexAgent)
    (routerGen : List Message → List ToolSchema → Except PyErr LLMResponse)
    (routerStream : List Message → List StreamChunk × Option PyErr)
    (uuids : Nat → String) (scheds : Nat → List Nat)
    (user_message : String) (rag_context : Option String := none) : StreamProcessResult :=
  let a' : HolexAgent := { a with history := a.history ++ [Message.user user_message] }
  let messages := a'.build_messages rag_context
  match streamLoop routerGen a' uuids scheds MAX_ITERATIONS 0 0 messages with
  | .error e =>
      let error_msg := "Sorry, I encountered an error: " ++ e.toStr
      { yielded := [error_msg], final := error_msg,
        history := a'.history ++ [Message.assistant error_msg], terminal := .errored }
  | .ok messages =>
      let run := routerStream messages
      let pieces := (run.1.filter (fun c => c.content != "")).map StreamChunk.content
      match run.2 with
      | some e =>
          let error_msg := "Sorry, I encountered an error: " ++ e.toStr
          { yielded := pieces ++ [error_msg], final := error_msg,
            history := a'.history ++ [Message.assistant error_msg], terminal := .errored }
      | none =>
          let full_response := String.join pieces
          { yielded := pieces, final := full_response,
            history := trimHistory a.max_history
              (a'.history ++ [Message.assistant full_response]),
            terminal := .finalAnswer }

/-- The suffix-to-mime table of `process_with_image`
(`mime_map.get(suffix, "image/png")`). -/
def mimeMap (suffix : String) : String :=
  if suffix == ".png" then "image/png"
  else if suffix == ".jpg" then "image/jpeg"
  else if suffix == ".jpeg" then "image/jpeg"
  else if suffix == ".gif" then "image/gif"
  else if suffix == ".webp" then "image/webp"
  else if suffix == ".bmp" then "image/bmp"
  else "image/png"

/-- Python `prompt = user_message or "Describe this image in detail."`:
the empty string is falsy. -/
def imagePrompt (user_message : String) : String :=
  if user_message == "" then "Describe this image in detail." else user_message

/-- The history entry `Message.user(f"[Image: {img_path.name}] {prompt}")`
appended by `process_with_image`; `img_path.name` is passed in as
`img_name` (see `HolexAgent.process_with_image`). -/
def imageHistoryEntry (user_message img_name : String) : Message :=
  Message.user ("[Image: " ++ img_name ++ "] " ++ imagePrompt user_message)

/-- Which of the three exits of `process_with_image` returned: the early
return for a missing file, the answer return, or the `except` return. -/
inductive ImageExit where
  | notFound
  | answered
  | failed
deriving DecidableEq, Repr

/-- Result of one `HolexAgent.process_with_image` call: the returned text,
the new `self._history`, and which exit path returned. -/
structure ImageProcessResult where
  result : String
  history : List Message
  exitKind : ImageExit
deriving DecidableEq, Repr

/-- Embedding of `HolexAgent.process_with_image` (lines 85-150).  The
file-system reads (`img_path.exists()`, `img_path.suffix.lower()`,
`img_path.name` and `base64.b64encode(img_path.read_bytes()).decode()`)
are external effects of `pathlib`/`base64` and enter as the parameters
`fileExists`, `img_suffix`, `img_name` and `fileB64`; everything after
them is transcribed.  A missing file returns early without touching
history; otherwise the tagged user message is appended to history,
`router.generate` is called on `[system_message] + [vision_msg]`
(the oracle `routerGen`; the call passes no tools), and the success path
appends the answer and trims while the `except` path appends
`"Vision analysis failed: {e}"` without trimming. -/
def HolexAgent.process_with_image (a : HolexAgent)
    (routerGen : List Message → Except PyErr LLMResponse)
    (user_message image_path : String) (fileExists : Bool)
    (img_name img_suffix fileB64 : String) : ImageProcessResult :=
  if !fileExists then
    { result := "Image file not found: " ++ image_path, history := a.history,
      exitKind := .notFound }
  else
    let data_url := "data:" ++ mimeMap img_suffix ++ ";base64," ++ fileB64
    let vision_msg := Message.user_with_image (imagePrompt user_message) data_url
    let history := a.history ++ [imageHistoryEntry user_message img_name]
    let messages := [a.system_message] ++ [vision_msg]
    match routerGen messages with
    | .ok response =>
        { result := response.content,
          history := trimHistory a.max_history
            (history ++ [Message.assistant response.content]),
          exitKind := .answered }
    | .error e =>
        let error_msg := "Vision analysis failed: " ++ e.toStr
        { result := error_msg, history := history ++ [Message.assistant error_msg],
          exitKind := .failed }

/-! ### Derived specification helpers -/

/-- Left-to-right duplicate removal: the order the spec describes for the
try-list (`[provider] + failover_order`, duplicates removed, first
occurrence kept). -/
def dedupKeepFirst : List String → List String
  | [] => []
  | x :: xs => x :: dedupKeepFirst (xs.filter (fun y => !(y == x)))
termination_by l => l.length
decreasing_by
  simp only [List.length_cons]
  exact Nat.lt_succ_of_le (List.length_filter_le _ _)

/-- The resolved provider of a `generate`/`stream` call
(`provider or self._current_provider`). -/
def resolvedProvider (r : LLMRouter) (provider : Option String) : Option String :=
  pyOrStrOpt provider r.current_provider

/-- The resolved, possibly auto-routed model of a `generate`/`stream` call. -/
def resolvedModel (r : LLMRouter) (messages : List Message)
    (provider model : Option String) (auto_route : Bool) : Option String :=
  autoRoutedModel (resolvedProvider r provider) (pyOrStrOpt model r.current_model)
    messages auto_route

/-- The try-list built by `generate`/`stream`. -/
def generateCandidates (r : LLMRouter) (provider : Option String) : List String :=
  providersToTry (resolvedProvider r provider) r.failover_order

/-- Candidates that are actually registered (`prov_name in self._providers`);
unregistered names are skipped by the loop without being invoked. -/
def registeredCandidates (r : LLMRouter) (cands : List String) : List String :=
  cands.filter (fun p => (lookupProv r.providers p).isSome)

/-- The error-list entry an attempt contributes (nothing on success). -/
def errEntry (att : Attempt) : Option String :=
  match att.outcome with
  | .error e => some (renderErr att.provider e)
  | .ok _ => none

/-- Ids carried by the extracted tool calls before normalization
(only non-empty present ids count: the others get synthesized). -/
def providedIds (calls : List ExtractedToolCall) : List String :=
  calls.filterMap (fun tc =>
    match tc.id with
    | some s => if s == "" then none else some s
    | none => none)

/-- A router outcome that is a successful response requesting at least one
tool call. -/
def toolCallish (o : Except PyErr LLMResponse) : Prop :=
  ∃ resp, o = Except.ok resp ∧ extract_tool_calls (resp.raw_response.getD {}) ≠ []

/-- How `process` relates the final history to the history at loop entry,
by exit path: the final-answer path appends the assistant message and
trims; the exhausted path leaves history untouched; the error path appends
the apologetic message without trimming. -/
def HistoryFrame (a : HolexAgent) (history : List Message) (out : ProcessResult) : Prop :=
  (out.terminal = .finalAnswer →
    out.history = trimHistory a.max_history (history ++ [Message.assistant out.result])) ∧
  (out.terminal = .exhausted → out.history = history) ∧
  (out.terminal = .errored → out.history = history ++ [Message.assistant out.result])

/-! ### Concrete instances used by witnesses and counterexamples -/

/-- A provider whose `generate` always raises the given error and whose
`stream` fails before yielding. -/
def failingProvider (e : PyErr) : BaseLLMProvider :=
  { generate := fun _ => .error e, streamRun := fun _ => ([], some e) }

/-- The single final chunk `okProvider` streams. -/
def finalChunkOf (resp : LLMResponse) : StreamChunk :=
  { content := resp.content, is_final := true, model := resp.model,
    provider := resp.provider }

/-- A provider whose `generate` returns the given response and whose
`stream` yields one final chunk. -/
def okProvider (resp : LLMResponse) : BaseLLMProvider :=
  { generate := fun _ => .ok resp,
    streamRun := fun _ => ([finalChunkOf resp], none) }

def c1Resp : LLMResponse := { content := "from ollama", model := "llama3.2:3b", provider := "ollama" }

/-- Router of the spec's failover scenario: A rate-limits, B raises a
generic LLM error, C succeeds. -/
def c1Router : LLMRouter :=
  { providers := [("groq", failingProvider (.rateLimit "groq" 0)),
                  ("gemini", failingProvider (.llm "gem down")),
                  ("ollama", okProvider c1Resp)],
    current_provider := some "groq",
    current_model := some "moonshotai/kimi-k2-instruct",
    failover_order := ["groq", "gemini", "ollama"] }

def c1Out : GenerateResult := c1Router.generate [Message.user "hi"]

def c2RouterA : LLMRouter :=
  { providers := [("groq", failingProvider (.llm "boom one")),
                  ("gemini", failingProvider (.llm "boom two"))],
    current_provider := some "groq",
    current_model := some "moonshotai/kimi-k2-instruct",
    failover_order := ["groq", "gemini"] }

def c2RouterB : LLMRouter :=
  { providers := [("groq", failingProvider (.llm "other cause")),
                  ("gemini", failingProvider (.rateLimit "gemini" 0))],
    current_provider := some "groq",
    current_model := some "moonshotai/kimi-k2-instruct",
    failover_order := ["groq", "gemini"] }

def c2RunA : GenerateResult := c2RouterA.generate [Message.user "hi"]

def c2RunB : GenerateResult := c2RouterB.generate [Message.user "hi"]

def c3GemResp : LLMResponse :=
  { content := "hello", model := "gemini-2.5-flash", provider := "gemini" }

def c3Router : LLMRouter :=
  { providers := [("groq", failingProvider (.llm "groq down")),
                  ("gemini", okProvider c3GemResp)],
    current_provider := some "groq",
    current_model := some "moonshotai/kimi-k2-instruct",
    failover_order := ["groq", "gemini"] }

def c3Run : StreamResult := c3Router.stream [Message.user "compare React vs Vue"]

/-- Tool-call list with a duplicated backend-supplied id and one missing id. -/
def c5DupCalls : List ExtractedToolCall :=
  [{ id := some "dup", name := "a", arguments := [] },
   { id := some "dup", name := "b", arguments := [] },
   { id := none, name := "c", arguments := [] }]

/-- A raw response in the Gemini wire shape requesting one no-op tool call
(and carrying no id). -/
def rawWithToolCall : RawResponse :=
  { candidates := [{ content := some { parts :=
      [{ functionCall := some { name := some "noop", args := [] } }] } }] }

def respWithToolCall : LLMResponse :=
  { content := "", model := "m", provider := "groq", raw_response := some rawWithToolCall }

/-- A router oracle that always requests a tool call. -/
def alwaysToolRouter : List Message → List ToolSchema → Except PyErr LLMResponse :=
  fun _ _ => .ok respWithToolCall

/-- A router oracle that always answers directly (no tool calls). -/
def plainOkRouter : List Message → List ToolSchema → Except PyErr LLMResponse :=
  fun _ _ => .ok { content := "fine", model := "m", provider := "groq" }

/-- A router oracle that always raises. -/
def failRouter : List Message → List ToolSchema → Except PyErr LLMResponse :=
  fun _ _ => .error (.llm "backend down")

def natUuids : Nat → String := fun n => toString n

def emptyScheds : Nat → List Nat := fun _ => []

def mkAgent (h : List Message) : HolexAgent :=
  { tools := [], system_message := Message.system "sys", history := h }

/-- An agent with one normal tool and one crashing tool registered. -/
def twoToolAgent : HolexAgent :=
  { tools := [("system_control",
      { name := "system_control", description := "control", parameters := [],
        execute := fun _ => .ok { success := true, output := "Opened Chrome" } }),
     ("crasher",
      { name := "crasher", description := "always raises", parameters := [],
        execute := fun _ => .error "division by zero" })],
    system_message := Message.system "sys" }

def c6Calls : List ExtractedToolCall :=
  [{ id := some "id1", name := "system_control", arguments := [("action", "open_app")] },
   { id := some "id2", name := "crasher", arguments := [] },
   { id := some "id3", name := "missing_tool", arguments := [] }]

/-- History after `n` successful turns of the trivial agent. -/
def c8HistAfter : Nat → List Message
  | 0 => []
  | n + 1 => ((mkAgent (c8HistAfter n)).process plainOkRouter natUuids emptyScheds "hi").history

/-- A uuid stream whose draws are pairwise distinct by construction
(lengths differ). -/
def repUuids : Nat → String := fun n => String.mk (List.replicate (n + 1) 'u')

/-- Tool calls with one backend-supplied id and one missing id. -/
def c5MixedCalls : List ExtractedToolCall :=
  [{ id := some "given", name := "a", arguments := [] },
   { id := none, name := "b", arguments := [] }]

/-- An agent-level stream oracle that yields two content chunks and an
empty final chunk, then finishes without raising. -/
def okStream : List Message → List StreamChunk × Option PyErr :=
  fun _ => ([{ content := "Hi " }, { content := "there" },
             { content := "", is_final := true }], none)

/-- A vision-call oracle (`router.generate` with no tools) that answers
directly. -/
def visionOkRouter : List Message → Except PyErr LLMResponse :=
  fun _ => .ok { content := "a red square", model := "v", provider := "groq" }

/-! ## Theorems -/

set_option maxRecDepth 100000

set_option linter.unnecessarySeqFocus false

/-- C4: `classify_query` is a pure deterministic function into the five
tiers with the fixed evaluation order vision, simple, tool, complex,
length over 500, normal.  An attached image always yields `vision`;
"hello" is `simple`; "what's the weather in Tokyo?" is `tool`;
"compare React vs Vue" is `complex`; a generic 600-character message
(600 times 'q', which matches no earlier pattern) is `complex`; and every
output is one of the five tiers. -/
theorem classify_query_tier_spec :
    (∀ t : String, classify_query t true = "vision") ∧
    classify_query "hello" false = "simple" ∧
    classify_query "what's the weather in Tokyo?" false = "tool" ∧
    classify_query "compare React vs Vue" false = "complex" ∧
    classify_query (String.mk (List.replicate 600 'q')) false = "complex" ∧
    (∀ (t : String) (b : Bool),
      classify_query t b = "vision" ∨ classify_query t b = "simple" ∨
      classify_query t b = "tool" ∨ classify_query t b = "complex" ∨
      classify_query t b = "normal") := by
  refine ⟨fun t => rfl, by decide, by decide, by decide, by decide, fun t b => ?_⟩
  unfold classify_query classifyCore
  split_ifs <;> simp

/-- The gather model resolves a task index to that task's completion:
duplicates of completion events do not matter because every completion
tagged `i` carries task `i`'s result. -/
lemma completionEvents_find (exec : ExtractedToolCall → ToolResult)
    (calls : List ExtractedToolCall) (i : Nat) :
    ∀ sched : List Nat, i ∈ sched →
      (completionEvents exec calls sched).find? (fun ev => ev.1 == i) =
        some (i, exec (calls.getD i ⟨none, "", []⟩)) := by
  intro sched hmem
  induction sched with
  | nil => cases hmem
  | cons j rest ih =>
    by_cases hj : j = i
    · subst hj
      simp [completionEvents, List.find?]
    · have hi' : i ∈ rest := by
        rcases List.mem_cons.mp hmem with h | h
        · exact absurd h.symm hj
        · exact h
      have hne : ((j, exec (calls.getD j ⟨none, "", []⟩)).1 == i) = false := by
        simpa using hj
      simpa [completionEvents, List.find?, hne] using ih hi'

/-- `asyncio.gather` semantics: when the completion schedule is a
permutation of the task indices, the returned result list is positional,
equal to mapping the executor over the calls in request order. -/
lemma gatherResults_perm (exec : ExtractedToolCall → ToolResult)
    (calls : List ExtractedToolCall) (sched : List Nat)
    (h : sched.Perm (List.range calls.length)) :
    gatherResults exec calls sched = calls.map exec := by
  apply List.ext_getElem
  · simp [gatherResults]
  · intro i hi hi2
    have hlen : i < calls.length := by simpa [gatherResults] using hi
    have hmem : i ∈ sched := h.mem_iff.mpr (List.mem_range.mpr hlen)
    simp only [gatherResults, List.getElem_map, List.getElem_range,
      completionEvents_find exec calls i sched hmem]
    rw [List.getD_eq_getElem _ _ hlen]

/-- Zipping a list with its own image under `f` and mapping recovers a
single map. -/
lemma toolResponseMessages_map (calls : List ExtractedToolCall)
    (f : ExtractedToolCall → ToolResult) :
    toolResponseMessages calls (calls.map f) =
      calls.map (fun tc => Message.tool (f tc).toStr tc.name (tc.id.getD "")) := by
  induction calls with
  | nil => rfl
  | cons c cs ih => simpa [toolResponseMessages] using ih

/-- C6: within one iteration, the Tool-role result messages appended for
`N` concurrently executed tool calls are in exactly the order of the
model's original tool-call list, for every completion schedule (every
permutation of the task indices), i.e. regardless of which tool finishes
first. -/
theorem tool_messages_in_request_order (a : HolexAgent) (calls : List ExtractedToolCall)
    (sched : List Nat) (h : sched.Perm (List.range calls.length)) :
    toolResponseMessages calls
        (gatherResults (fun tc => a.execute_tool tc.name tc.arguments) calls sched) =
      calls.map (fun tc =>
        Message.tool (a.execute_tool tc.name tc.arguments).toStr tc.name (tc.id.getD "")) := by
  rw [gatherResults_perm _ _ _ h, toolResponseMessages_map]

/-- C6 witness: three tool calls (one of them crashing, one unregistered)
completed in the staggered order 2, 0, 1 still yield Tool messages in
request order. -/
theorem tool_messages_in_request_order_witness :
    ([2, 0, 1].Perm (List.range c6Calls.length)) ∧
    toolResponseMessages c6Calls
        (gatherResults (fun tc => twoToolAgent.execute_tool tc.name tc.arguments)
          c6Calls [2, 0, 1]) =
      c6Calls.map (fun tc =>
        Message.tool (twoToolAgent.execute_tool tc.name tc.arguments).toStr
          tc.name (tc.id.getD "")) :=
  ⟨by decide, tool_messages_in_request_order twoToolAgent c6Calls [2, 0, 1] (by decide)⟩

/-- C9: an unregistered tool name or an exception inside `execute` is
always converted into a failed `ToolResult` (never propagated), and in
the concurrent fan-out each slot's result is a function of that slot's
call alone, so one tool's failure cannot prevent its siblings from
producing their results. -/
theorem tool_failures_isolated (a : HolexAgent) (tool_name : String) (args : ArgsMap) :
    (lookupTool a.tools tool_name = none →
      a.execute_tool tool_name args =
        { success := false, output := "",
          error := some ("Tool '" ++ tool_name ++ "' not found") }) ∧
    (∀ tool e, lookupTool a.tools tool_name = some tool →
      tool.execute args = .error e →
      a.execute_tool tool_name args =
        { success := false, output := "", error := some e }) ∧
    (∀ (calls : List ExtractedToolCall) (sched : List Nat),
      sched.Perm (List.range calls.length) →
      ∀ i : Nat,
        (gatherResults (fun tc => a.execute_tool tc.name tc.arguments) calls sched)[i]? =
          calls[i]?.map (fun tc => a.execute_tool tc.name tc.arguments)) := by
  refine ⟨?_, ?_, ?_⟩
  · intro h; simp [HolexAgent.execute_tool, h]
  · intro tool e h1 h2; simp [HolexAgent.execute_tool, h1, h2]
  · intro calls sched hp i
    rw [gatherResults_perm _ _ _ hp]
    simp [List.getElem?_map]

/-- C9 witness: the unregistered name and the crashing tool both become
failed results, and slot-wise results of the staggered fan-out are those
of the individual calls. -/
theorem tool_failures_isolated_witness :
    twoToolAgent.execute_tool "missing_tool" [] =
      { success := false, output := "", error := some "Tool 'missing_tool' not found" } ∧
    twoToolAgent.execute_tool "crasher" [] =
      { success := false, output := "", error := some "division by zero" } ∧
    (gatherResults (fun tc => twoToolAgent.execute_tool tc.name tc.arguments)
        c6Calls [2, 0, 1])[1]? =
      c6Calls[1]?.map (fun tc => twoToolAgent.execute_tool tc.name tc.arguments) := by
  refine ⟨(tool_failures_isolated twoToolAgent "missing_tool" []).1 rfl,
    (tool_failures_isolated twoToolAgent "crasher" []).2.1 _ "division by zero" rfl rfl,
    (tool_failures_isolated twoToolAgent "x" []).2.2 c6Calls [2, 0, 1] (by decide) 1⟩

/-- When the router always requests a tool call, the loop consumes all its
remaining iterations, makes one more router call per iteration, leaves the
history untouched and exits through the exhausted path. -/
lemma processLoop_always_tools
    (routerGen : List Message → List ToolSchema → Except PyErr LLMResponse)
    (a : HolexAgent) (uuids : Nat → String) (scheds : Nat → List Nat)
    (h : ∀ ms, toolCallish (routerGen ms a.get_tool_schemas)) :
    ∀ (remaining iter uuidK calls : Nat) (messages history : List Message),
      (processLoop routerGen a uuids scheds remaining iter uuidK calls messages
          history).terminal = .exhausted ∧
      (processLoop routerGen a uuids scheds remaining iter uuidK calls messages
          history).result = exhaustedMessage ∧
      (processLoop routerGen a uuids scheds remaining iter uuidK calls messages
          history).history = history ∧
      (processLoop routerGen a uuids scheds remaining iter uuidK calls messages
          history).routerCalls = calls + remaining := by
  intro remaining
  induction remaining with
  | zero => intro iter uuidK calls messages history; simp [processLoop]
  | succ n ih =>
    intro iter uuidK calls messages history
    obtain ⟨resp, heq, hne⟩ := h messages
    have hisE : (extract_tool_calls (resp.raw_response.getD {})).isEmpty = false := by
      simpa [List.isEmpty_iff] using hne
    refine ⟨?_, ?_, ?_, ?_⟩ <;> simp only [processLoop, heq, hisE] <;> split <;>
      rename_i hcond
    · cases hcond
    · exact (ih _ _ _ _ _).1
    · cases hcond
    · exact (ih _ _ _ _ _).2.1
    · cases hcond
    · exact (ih _ _ _ _ _).2.2.1
    · cases hcond
    · rw [(ih _ _ _ _ _).2.2.2]; omega

/-- The history relation of the three exits of the loop: within the loop
body nothing is appended to persistent history; only the exits touch it. -/
lemma processLoop_historyFrame
    (routerGen : List Message → List ToolSchema → Except PyErr LLMResponse)
    (a : HolexAgent) (uuids : Nat → String) (scheds : Nat → List Nat) :
    ∀ (remaining iter uuidK calls : Nat) (messages history : List Message),
      HistoryFrame a history
        (processLoop routerGen a uuids scheds remaining iter uuidK calls messages history) := by
  intro remaining
  induction remaining with
  | zero =>
    intro iter uuidK calls messages history
    refine ⟨?_, ?_, ?_⟩ <;> intro ht <;> simp [processLoop] at ht ⊢
  | succ n ih =>
    intro iter uuidK calls messages history
    rcases hgen : routerGen messages a.get_tool_schemas with e | resp
    · refine ⟨fun ht => ?_, fun ht => ?_, fun ht => ?_⟩ <;>
        simp only [processLoop, hgen] at ht ⊢ <;>
        first | rfl | simp at ht
    · by_cases hisE : (extract_tool_calls (resp.raw_response.getD {})).isEmpty = true
      · refine ⟨fun ht => ?_, fun ht => ?_, fun ht => ?_⟩ <;>
          simp only [processLoop, hgen, if_pos hisE] at ht ⊢ <;>
          first | rfl | simp at ht
      · refine ⟨fun ht => ?_, fun ht => ?_, fun ht => ?_⟩ <;>
          simp only [processLoop, hgen, if_neg hisE] at ht ⊢ <;>
          first
            | exact (ih _ _ _ _ _).1 ht
            | exact (ih _ _ _ _ _).2.1 ht
            | exact (ih _ _ _ _ _).2.2 ht

/-- C7: if the router response contains tool calls on every iteration,
`process` performs exactly `MAX_ITERATIONS` (5) router calls, never more,
and then returns the fixed exhausted message through the distinct
exhausted exit path (never the final-answer path). -/
theorem process_iteration_bound (a : HolexAgent)
    (routerGen : List Message → List ToolSchema → Except PyErr LLMResponse)
    (uuids : Nat → String) (scheds : Nat → List Nat)
    (user_message : String) (rag_context : Option String)
    (h : ∀ ms, toolCallish (routerGen ms a.get_tool_schemas)) :
    (a.process routerGen uuids scheds user_message rag_context).routerCalls =
      MAX_ITERATIONS ∧
    (a.process routerGen uuids scheds user_message rag_context).result =
      exhaustedMessage ∧
    (a.process routerGen uuids scheds user_message rag_context).terminal =
      TermKind.exhausted := by
  have hl := processLoop_always_tools routerGen
    { a with history := a.history ++ [Message.user user_message] } uuids scheds h
    MAX_ITERATIONS 0 0 0
    (HolexAgent.build_messages
      { a with history := a.history ++ [Message.user user_message] } rag_context)
    (a.history ++ [Message.user user_message])
  exact ⟨hl.2.2.2, hl.2.1, hl.1⟩

/-- C7 witness: a concrete agent driven by a router that always requests a
(no-op) tool call makes exactly 5 router calls and returns the exhausted
message. -/
theorem process_iteration_bound_witness :
    ((mkAgent []).process alwaysToolRouter natUuids emptyScheds "loop" none).routerCalls =
      MAX_ITERATIONS ∧
    ((mkAgent []).process alwaysToolRouter natUuids emptyScheds "loop" none).result =
      exhaustedMessage ∧
    ((mkAgent []).process alwaysToolRouter natUuids emptyScheds "loop" none).terminal =
      TermKind.exhausted :=
  process_iteration_bound (mkAgent []) alwaysToolRouter natUuids emptyScheds "loop" none
    (fun _ => ⟨respWithToolCall, rfl, by decide⟩)

/-- C10: when `process` exhausts `MAX_ITERATIONS`, the returned exhausted
message is not appended to the persistent history: the history is exactly
as it was after the user message was appended at the start of the turn,
with no Assistant entry for that turn. -/
theorem exhausted_message_not_persisted (a : HolexAgent)
    (routerGen : List Message → List ToolSchema → Except PyErr LLMResponse)
    (uuids : Nat → String) (scheds : Nat → List Nat)
    (user_message : String) (rag_context : Option String)
    (h : ∀ ms, toolCallish (routerGen ms a.get_tool_schemas)) :
    (a.process routerGen uuids scheds user_message rag_context).history =
      a.history ++ [Message.user user_message] ∧
    (a.process routerGen uuids scheds user_message rag_context).result =
      exhaustedMessage := by
  have hl := processLoop_always_tools routerGen
    { a with history := a.history ++ [Message.user user_message] } uuids scheds h
    MAX_ITERATIONS 0 0 0
    (HolexAgent.build_messages
      { a with history := a.history ++ [Message.user user_message] } rag_context)
    (a.history ++ [Message.user user_message])
  exact ⟨hl.2.2.1, hl.2.1⟩

/-- C10 witness: the concrete exhausted run leaves history at exactly the
user message appended at the start of the turn. -/
theorem exhausted_message_not_persisted_witness :
    ((mkAgent []).process alwaysToolRouter natUuids emptyScheds "loop again" none).history =
      [] ++ [Message.user "loop again"] ∧
    ((mkAgent []).process alwaysToolRouter natUuids emptyScheds "loop again" none).result =
      exhaustedMessage :=
  exhausted_message_not_persisted (mkAgent []) alwaysToolRouter natUuids emptyScheds
    "loop again" none (fun _ => ⟨respWithToolCall, rfl, by decide⟩)

lemma trimHistory_length (m : Nat) (h : List Message) :
    (trimHistory m h).length ≤ m := by
  unfold trimHistory
  split_ifs with hl
  · simp; omega
  · omega

lemma trimHistory_suffix (m : Nat) (h : List Message) : trimHistory m h <:+ h := by
  unfold trimHistory
  split_ifs
  · exact List.drop_suffix _ _
  · exact List.suffix_refl _

/-- The history relation of the two exits of `stream_process`: the
final-answer exit appends the accumulated response and trims; the error
exit appends the error message without trimming. -/
lemma stream_process_historyFrame (a : HolexAgent)
    (routerGen : List Message → List ToolSchema → Except PyErr LLMResponse)
    (routerStream : List Message → List StreamChunk × Option PyErr)
    (uuids : Nat → String) (scheds : Nat → List Nat)
    (su : String) (srag : Option String) :
    ((a.stream_process routerGen routerStream uuids scheds su srag).terminal =
        TermKind.finalAnswer →
      (a.stream_process routerGen routerStream uuids scheds su srag).history =
        trimHistory a.max_history
          ((a.history ++ [Message.user su]) ++
            [Message.assistant
              (a.stream_process routerGen routerStream uuids scheds su srag).final])) ∧
    ((a.stream_process routerGen routerStream uuids scheds su srag).terminal =
        TermKind.errored →
      (a.stream_process routerGen routerStream uuids scheds su srag).history =
        (a.history ++ [Message.user su]) ++
          [Message.assistant
            (a.stream_process routerGen routerStream uuids scheds su srag).final]) := by
  rcases hloop : streamLoop routerGen
      { a with history := a.history ++ [Message.user su] } uuids scheds
      MAX_ITERATIONS 0 0
      (HolexAgent.build_messages { a with history := a.history ++ [Message.user su] } srag)
    with e | msgs
  · refine ⟨fun ht => ?_, fun ht => ?_⟩ <;>
      simp only [HolexAgent.stream_process, hloop] at ht ⊢ <;>
      first | rfl | simp at ht
  · refine ⟨fun ht => ?_, fun ht => ?_⟩ <;>
      simp only [HolexAgent.stream_process, hloop] at ht ⊢ <;>
      rcases hrun : (routerStream msgs).2 with _ | e <;>
      simp only [hrun] at ht ⊢ <;>
      first | rfl | simp at ht

/-- The history relation of the three exits of `process_with_image`: the
answer exit appends the response and trims, the failure exit appends the
error message without trimming, and the missing-file exit leaves history
untouched. -/
lemma process_with_image_historyFrame (a : HolexAgent)
    (routerGen : List Message → Except PyErr LLMResponse)
    (vu image_path : String) (fileExists : Bool)
    (img_name img_suffix fileB64 : String) :
    ((a.process_with_image routerGen vu image_path fileExists img_name img_suffix
        fileB64).exitKind = ImageExit.answered →
      (a.process_with_image routerGen vu image_path fileExists img_name img_suffix
        fileB64).history =
        trimHistory a.max_history
          ((a.history ++ [imageHistoryEntry vu img_name]) ++
            [Message.assistant (a.process_with_image routerGen vu image_path fileExists
              img_name img_suffix fileB64).result])) ∧
    ((a.process_with_image routerGen vu image_path fileExists img_name img_suffix
        fileB64).exitKind = ImageExit.failed →
      (a.process_with_image routerGen vu image_path fileExists img_name img_suffix
        fileB64).history =
        (a.history ++ [imageHistoryEntry vu img_name]) ++
          [Message.assistant (a.process_with_image routerGen vu image_path fileExists
            img_name img_suffix fileB64).result]) ∧
    ((a.process_with_image routerGen vu image_path fileExists img_name img_suffix
        fileB64).exitKind = ImageExit.notFound →
      (a.process_with_image routerGen vu image_path fileExists img_name img_suffix
        fileB64).history = a.history) := by
  by_cases hf : (!fileExists) = true
  · refine ⟨fun ht => ?_, fun ht => ?_, fun ht => ?_⟩ <;>
      simp only [HolexAgent.process_with_image, if_pos hf] at ht ⊢ <;>
      first | rfl | simp at ht
  · rcases hv : routerGen ([a.system_message] ++
        [Message.user_with_image (imagePrompt vu)
          ("data:" ++ mimeMap img_suffix ++ ";base64," ++ fileB64)]) with e | resp <;>
      refine ⟨fun ht => ?_, fun ht => ?_, fun ht => ?_⟩ <;>
      simp only [HolexAgent.process_with_image, if_neg hf, hv] at ht ⊢ <;>
      first | rfl | simp at ht

/-- C8 (amended): across `process`, `stream_process` and
`process_with_image`, a turn that completes with a normal final answer
leaves the history within the `max_history` cap (50) and retains the most
recent entries in their original order.  Every failing exit skips the
trim: a `process` turn that exhausts its iterations appends only the user
message, an error turn of `process` or `stream_process` appends the user
message and the assistant error message, a failing `process_with_image`
turn appends the image-tagged user message and the error message, and a
`process_with_image` call whose file is missing leaves history untouched
— so failing turns can leave the history above the cap until the next
successful turn trims it. -/
theorem history_trimming_by_exit_path (a : HolexAgent)
    (routerGen : List Message → List ToolSchema → Except PyErr LLMResponse)
    (routerStream : List Message → List StreamChunk × Option PyErr)
    (routerGenV : List Message → Except PyErr LLMResponse)
    (uuids : Nat → String) (scheds : Nat → List Nat)
    (u su vu : String) (rag srag : Option String)
    (image_path : String) (fileExists : Bool)
    (img_name img_suffix fileB64 : String) :
    ((a.process routerGen uuids scheds u rag).terminal = TermKind.finalAnswer →
      (a.process routerGen uuids scheds u rag).history.length ≤ a.max_history ∧
      (a.process routerGen uuids scheds u rag).history <:+
        (a.history ++ [Message.user u,
          Message.assistant (a.process routerGen uuids scheds u rag).result])) ∧
    ((a.process routerGen uuids scheds u rag).terminal = TermKind.exhausted →
      (a.process routerGen uuids scheds u rag).history =
        a.history ++ [Message.user u]) ∧
    ((a.process routerGen uuids scheds u rag).terminal = TermKind.errored →
      (a.process routerGen uuids scheds u rag).history =
        a.history ++ [Message.user u,
          Message.assistant (a.process routerGen uuids scheds u rag).result]) ∧
    ((a.stream_process routerGen routerStream uuids scheds su srag).terminal =
        TermKind.finalAnswer →
      (a.stream_process routerGen routerStream uuids scheds su srag).history.length ≤
        a.max_history ∧
      (a.stream_process routerGen routerStream uuids scheds su srag).history <:+
        (a.history ++ [Message.user su,
          Message.assistant
            (a.stream_process routerGen routerStream uuids scheds su srag).final])) ∧
    ((a.stream_process routerGen routerStream uuids scheds su srag).terminal =
        TermKind.errored →
      (a.stream_process routerGen routerStream uuids scheds su srag).history =
        a.history ++ [Message.user su,
          Message.assistant
            (a.stream_process routerGen routerStream uuids scheds su srag).final]) ∧
    ((a.process_with_image routerGenV vu image_path fileExists img_name img_suffix
        fileB64).exitKind = ImageExit.answered →
      (a.process_with_image routerGenV vu image_path fileExists img_name img_suffix
        fileB64).history.length ≤ a.max_history ∧
      (a.process_with_image routerGenV vu image_path fileExists img_name img_suffix
        fileB64).history <:+
        (a.history ++ [imageHistoryEntry vu img_name,
          Message.assistant (a.process_with_image routerGenV vu image_path fileExists
            img_name img_suffix fileB64).result])) ∧
    ((a.process_with_image routerGenV vu image_path fileExists img_name img_suffix
        fileB64).exitKind = ImageExit.failed →
      (a.process_with_image routerGenV vu image_path fileExists img_name img_suffix
        fileB64).history =
        a.history ++ [imageHistoryEntry vu img_name,
          Message.assistant (a.process_with_image routerGenV vu image_path fileExists
            img_name img_suffix fileB64).result]) ∧
    ((a.process_with_image routerGenV vu image_path fileExists img_name img_suffix
        fileB64).exitKind = ImageExit.notFound →
      (a.process_with_image routerGenV vu image_path fileExists img_name img_suffix
        fileB64).history = a.history) := by
  have hf := processLoop_historyFrame routerGen
    { a with history := a.history ++ [Message.user u] } uuids scheds
    MAX_ITERATIONS 0 0 0
    (HolexAgent.build_messages { a with history := a.history ++ [Message.user u] } rag)
    (a.history ++ [Message.user u])
  have hs := stream_process_historyFrame a routerGen routerStream uuids scheds su srag
  have hi := process_with_image_historyFrame a routerGenV vu image_path fileExists
    img_name img_suffix fileB64
  simp only [HolexAgent.process]
  refine ⟨fun ht => ?_, fun ht => ?_, fun ht => ?_, fun ht => ?_, fun ht => ?_,
    fun ht => ?_, fun ht => ?_, fun ht => ?_⟩
  · have he := hf.1 ht
    constructor
    · rw [he]; exact trimHistory_length _ _
    · rw [he]
      have hsuf := trimHistory_suffix a.max_history
        ((a.history ++ [Message.user u]) ++
          [Message.assistant (processLoop routerGen
            { a with history := a.history ++ [Message.user u] } uuids scheds
            MAX_ITERATIONS 0 0 0
            (HolexAgent.build_messages { a with history := a.history ++ [Message.user u] } rag)
            (a.history ++ [Message.user u])).result])
      simpa [List.append_assoc] using hsuf
  · simpa using hf.2.1 ht
  · have he := hf.2.2 ht
    rw [he]; simp
  · have he := hs.1 ht
    constructor
    · rw [he]; exact trimHistory_length _ _
    · rw [he]
      have hsuf := trimHistory_suffix a.max_history
        ((a.history ++ [Message.user su]) ++
          [Message.assistant
            (a.stream_process routerGen routerStream uuids scheds su srag).final])
      simpa [List.append_assoc] using hsuf
  · have he := hs.2 ht
    rw [he]; simp
  · have he := hi.1 ht
    constructor
    · rw [he]; exact trimHistory_length _ _
    · rw [he]
      have hsuf := trimHistory_suffix a.max_history
        ((a.history ++ [imageHistoryEntry vu img_name]) ++
          [Message.assistant (a.process_with_image routerGenV vu image_path fileExists
            img_name img_suffix fileB64).result])
      simpa [List.append_assoc] using hsuf
  · have he := hi.2.1 ht
    rw [he]; simp
  · exact hi.2.2 ht

/-- C8 witness: concrete successful turns of `process`, `stream_process`
and `process_with_image` each stay within the cap; the two chat turns
also keep the most recent messages in their original order. -/
theorem history_trimming_by_exit_path_witness :
    (((mkAgent []).process plainOkRouter natUuids emptyScheds "hey" none).history.length ≤
        (mkAgent []).max_history ∧
      ((mkAgent []).process plainOkRouter natUuids emptyScheds "hey" none).history <:+
        ((mkAgent []).history ++ [Message.user "hey",
          Message.assistant ((mkAgent []).process plainOkRouter natUuids emptyScheds
            "hey" none).result])) ∧
    (((mkAgent []).stream_process plainOkRouter okStream natUuids emptyScheds "sup"
        none).history.length ≤ (mkAgent []).max_history ∧
      ((mkAgent []).stream_process plainOkRouter okStream natUuids emptyScheds "sup"
        none).history <:+
        ((mkAgent []).history ++ [Message.user "sup",
          Message.assistant ((mkAgent []).stream_process plainOkRouter okStream natUuids
            emptyScheds "sup" none).final])) ∧
    ((mkAgent []).process_with_image visionOkRouter "look" "img.png" true "img.png"
        ".png" "QUJD").history.length ≤ (mkAgent []).max_history := by
  have H := history_trimming_by_exit_path (mkAgent []) plainOkRouter okStream
    visionOkRouter natUuids emptyScheds "hey" "sup" "look" none none "img.png" true
    "img.png" ".png" "QUJD"
  exact ⟨H.1 rfl, H.2.2.2.1 rfl, (H.2.2.2.2.2.1 rfl).1⟩

/-- C8 counterexample: starting from the empty history, 25 successful
turns fill the history to the cap of 50; a 26th turn whose router call
raises appends the user message and the error reply without trimming,
leaving 52 > 50 messages — so the claimed invariant fails after a turn
that ends in an error. -/
theorem history_cap_violated_after_error_turn :
    ((mkAgent (c8HistAfter 25)).process failRouter natUuids emptyScheds "hi").history.length =
      52 ∧
    (mkAgent (c8HistAfter 25)).max_history = 50 ∧ ¬(52 ≤ 50) := by
  refine ⟨by decide, rfl, by omega⟩

lemma call_prefix_cancel (x y : String) (h : "call_" ++ x = "call_" ++ y) : x = y := by
  have hd : ("call_" ++ x).data = ("call_" ++ y).data := congrArg String.data h
  rw [String.data_append, String.data_append] at hd
  exact String.ext (List.append_cancel_left hd)

lemma call_ne_empty (x : String) : "call_" ++ x ≠ "" := by
  intro h
  have hl := congrArg String.length h
  rw [String.length_append] at hl
  have h1 : "call_".length = 5 := rfl
  have h2 : "".length = 0 := rfl
  rw [h1, h2] at hl
  omega

lemma normalizeToolCalls_cons_keep (uuids : Nat → String) (k : Nat)
    (tc : ExtractedToolCall) (rest : List ExtractedToolCall) (s : String)
    (hid : tc.id = some s) (hne : s ≠ "") :
    normalizeToolCalls uuids k (tc :: rest) =
      ((normalizeToolCalls uuids k rest).1,
       tc :: (normalizeToolCalls uuids k rest).2.1,
       ⟨s, tc.name, dumpsArgs tc.arguments⟩ :: (normalizeToolCalls uuids k rest).2.2) := by
  simp only [normalizeToolCalls, hid]
  rw [if_neg (by simpa using hne)]
  simp [hid]

lemma normalizeToolCalls_cons_synthNone (uuids : Nat → String) (k : Nat)
    (tc : ExtractedToolCall) (rest : List ExtractedToolCall) (hid : tc.id = none) :
    normalizeToolCalls uuids k (tc :: rest) =
      ((normalizeToolCalls uuids (k + 1) rest).1,
       { tc with id := some ("call_" ++ uuids k) } ::
         (normalizeToolCalls uuids (k + 1) rest).2.1,
       ⟨"call_" ++ uuids k, tc.name, dumpsArgs tc.arguments⟩ ::
         (normalizeToolCalls uuids (k + 1) rest).2.2) := by
  simp [normalizeToolCalls, hid]

lemma normalizeToolCalls_cons_synthEmpty (uuids : Nat → String) (k : Nat)
    (tc : ExtractedToolCall) (rest : List ExtractedToolCall) (hid : tc.id = some "") :
    normalizeToolCalls uuids k (tc :: rest) =
      ((normalizeToolCalls uuids (k + 1) rest).1,
       { tc with id := some ("call_" ++ uuids k) } ::
         (normalizeToolCalls uuids (k + 1) rest).2.1,
       ⟨"call_" ++ uuids k, tc.name, dumpsArgs tc.arguments⟩ ::
         (normalizeToolCalls uuids (k + 1) rest).2.2) := by
  simp [normalizeToolCalls, hid]

/-- Shape of the ids after normalization: every id is present and
non-empty; a kept id is one of the provided non-empty ids and a
synthesized id is `"call_" + uuids n` with a draw index at or past `k`;
and, under the freshness assumptions, the ids are pairwise distinct. -/
lemma normalizeToolCalls_ids (uuids : Nat → String)
    (hInj : ∀ m n, uuids m = uuids n → m = n) :
    ∀ (calls : List ExtractedToolCall) (k : Nat),
      (providedIds calls).Nodup →
      (∀ n, ("call_" ++ uuids n) ∉ providedIds calls) →
      (∀ tc ∈ (normalizeToolCalls uuids k calls).2.1, ∃ s, tc.id = some s ∧ s ≠ "" ∧
        (s ∈ providedIds calls ∨ ∃ n, k ≤ n ∧ s = "call_" ++ uuids n)) ∧
      ((normalizeToolCalls uuids k calls).2.1.map ExtractedToolCall.id).Nodup := by
  intro calls
  induction calls with
  | nil =>
    intro k h1 h2
    exact ⟨fun tc htc => absurd htc (by simp [normalizeToolCalls]),
      by simp [normalizeToolCalls]⟩
  | cons tc rest ih =>
    intro k h1 h2
    by_cases hsynth : tc.id = none ∨ tc.id = some ""
    · -- missing or empty id: synthesize with draw k
      have hstep : normalizeToolCalls uuids k (tc :: rest) =
          ((normalizeToolCalls uuids (k + 1) rest).1,
           { tc with id := some ("call_" ++ uuids k) } ::
             (normalizeToolCalls uuids (k + 1) rest).2.1,
           ⟨"call_" ++ uuids k, tc.name, dumpsArgs tc.arguments⟩ ::
             (normalizeToolCalls uuids (k + 1) rest).2.2) := by
        rcases hsynth with h | h
        · exact normalizeToolCalls_cons_synthNone uuids k tc rest h
        · exact normalizeToolCalls_cons_synthEmpty uuids k tc rest h
      have hP : providedIds (tc :: rest) = providedIds rest := by
        rcases hsynth with h | h <;> simp [providedIds, h]
      rw [hP] at h1 h2
      obtain ⟨ihA, ihB⟩ := ih (k + 1) h1 h2
      rw [hstep]
      constructor
      · intro tc' htc'
        rcases List.mem_cons.mp htc' with rfl | htc'
        · exact ⟨"call_" ++ uuids k, rfl, call_ne_empty _, Or.inr ⟨k, le_refl _, rfl⟩⟩
        · obtain ⟨s', hq1, hq2, hq3⟩ := ihA tc' htc'
          refine ⟨s', hq1, hq2, ?_⟩
          rcases hq3 with h | ⟨n, hn, he⟩
          · exact Or.inl (by rwa [hP])
          · exact Or.inr ⟨n, by omega, he⟩
      · rw [List.map_cons]
        refine List.Nodup.cons ?_ ihB
        intro hmem
        obtain ⟨tc', htc', hideq⟩ := List.mem_map.mp hmem
        obtain ⟨s', hq1, _, hq3⟩ := ihA tc' htc'
        rw [hq1] at hideq
        have hs : s' = "call_" ++ uuids k := Option.some.inj hideq
        rcases hq3 with h | ⟨n, hn, he⟩
        · exact h2 k (hs ▸ h)
        · have hcc : "call_" ++ uuids n = "call_" ++ uuids k := he.symm.trans hs
          have := hInj n k (call_prefix_cancel _ _ hcc)
          omega
    · -- a non-empty id is present: kept as-is
      push_neg at hsynth
      obtain ⟨hnn, hns⟩ := hsynth
      rcases hid : tc.id with _ | s
      · exact absurd hid hnn
      have hne : s ≠ "" := by
        intro he
        exact hns (by rw [hid, he])
      have hstep := normalizeToolCalls_cons_keep uuids k tc rest s hid hne
      have hP : providedIds (tc :: rest) = s :: providedIds rest := by
        simp [providedIds, hid, hne]
      rw [hP] at h1 h2
      have h1r : (providedIds rest).Nodup := (List.nodup_cons.mp h1).2
      have hsNotin : s ∉ providedIds rest := (List.nodup_cons.mp h1).1
      have h2r : ∀ n, ("call_" ++ uuids n) ∉ providedIds rest := by
        intro n hc
        exact h2 n (List.mem_cons_of_mem _ hc)
      have h2s : ∀ n, s ≠ "call_" ++ uuids n := by
        intro n he
        exact h2 n (he ▸ List.mem_cons_self _ _)
      obtain ⟨ihA, ihB⟩ := ih k h1r h2r
      rw [hstep]
      constructor
      · intro tc' htc'
        rcases List.mem_cons.mp htc' with rfl | htc'
        · exact ⟨s, hid, hne, Or.inl (by rw [hP]; exact List.mem_cons_self _ _)⟩
        · obtain ⟨s', hq1, hq2, hq3⟩ := ihA tc' htc'
          refine ⟨s', hq1, hq2, ?_⟩
          rcases hq3 with h | h
          · exact Or.inl (by rw [hP]; exact List.mem_cons_of_mem _ h)
          · exact Or.inr h
      · rw [List.map_cons]
        refine List.Nodup.cons ?_ ihB
        intro hmem
        obtain ⟨tc', htc', hideq⟩ := List.mem_map.mp hmem
        obtain ⟨s', hq1, _, hq3⟩ := ihA tc' htc'
        rw [hq1, hid] at hideq
        have hseq : s' = s := Option.some.inj hideq
        rcases hq3 with h | ⟨n, _, he⟩
        · exact hsNotin (hseq ▸ h)
        · exact h2s n (hseq ▸ he : s = _)

lemma normalizeToolCalls_length (uuids : Nat → String) :
    ∀ (calls : List ExtractedToolCall) (k : Nat),
      (normalizeToolCalls uuids k calls).2.1.length = calls.length := by
  intro calls
  induction calls with
  | nil => intro k; simp [normalizeToolCalls]
  | cons tc rest ih => intro k; simp [normalizeToolCalls, ih]

lemma gatherResults_length (exec : ExtractedToolCall → ToolResult)
    (calls : List ExtractedToolCall) (sched : List Nat) :
    (gatherResults exec calls sched).length = calls.length := by
  simp [gatherResults]

lemma toolResponseMessages_ids (calls : List ExtractedToolCall) :
    ∀ results : List ToolResult, results.length = calls.length →
      (toolResponseMessages calls results).map Message.tool_call_id =
        calls.map (fun tc => some (tc.id.getD "")) := by
  induction calls with
  | nil => intro results h; simp [toolResponseMessages]
  | cons c cs ih =>
    intro results h
    cases results with
    | nil => simp at h
    | cons r rs =>
      simp only [toolResponseMessages, List.zip_cons_cons, List.map_cons]
      have := ih rs (by simpa using h)
      simp only [toolResponseMessages] at this
      rw [this]
      rfl

/-- C5 (amended): after normalization every tool-call request carries a
non-empty id; a request lacking an id (missing or empty) receives a fresh
`"call_" + uuid` id; the ids are pairwise distinct provided the
backend-supplied non-empty ids are themselves distinct and the uuid draws
are fresh (the uuid assumption the source relies on); and the Tool-role
messages appended for the turn reference exactly those ids, in order, one
message per request. -/
theorem tool_call_ids_normalized_and_referenced (a : HolexAgent) (uuids : Nat → String)
    (k : Nat) (calls : List ExtractedToolCall) (sched : List Nat)
    (hNodup : (providedIds calls).Nodup)
    (hInj : ∀ m n, uuids m = uuids n → m = n)
    (hFresh : ∀ n, ("call_" ++ uuids n) ∉ providedIds calls) :
    (∀ tc ∈ (normalizeToolCalls uuids k calls).2.1, ∃ s, tc.id = some s ∧ s ≠ "") ∧
    ((normalizeToolCalls uuids k calls).2.1.map ExtractedToolCall.id).Nodup ∧
    (normalizeToolCalls uuids k calls).2.1.length = calls.length ∧
    (toolResponseMessages (normalizeToolCalls uuids k calls).2.1
        (gatherResults (fun tc => a.execute_tool tc.name tc.arguments)
          (normalizeToolCalls uuids k calls).2.1 sched)).map Message.tool_call_id =
      (normalizeToolCalls uuids k calls).2.1.map (fun tc => some (tc.id.getD "")) ∧
    (toolResponseMessages (normalizeToolCalls uuids k calls).2.1
        (gatherResults (fun tc => a.execute_tool tc.name tc.arguments)
          (normalizeToolCalls uuids k calls).2.1 sched)).length = calls.length := by
  obtain ⟨hA, hB⟩ := normalizeToolCalls_ids uuids hInj calls k hNodup hFresh
  refine ⟨fun tc htc => (hA tc htc).imp (fun s hs => ⟨hs.1, hs.2.1⟩), hB,
    normalizeToolCalls_length uuids calls k,
    toolResponseMessages_ids _ _ (by rw [gatherResults_length]), ?_⟩
  simp [toolResponseMessages, gatherResults_length, normalizeToolCalls_length]

/-- C5 witness: one provided id and one missing id, with a
distinct-by-length uuid stream and a staggered completion order. -/
theorem tool_call_ids_normalized_and_referenced_witness :
    (∀ tc ∈ (normalizeToolCalls repUuids 0 c5MixedCalls).2.1,
      ∃ s, tc.id = some s ∧ s ≠ "") ∧
    ((normalizeToolCalls repUuids 0 c5MixedCalls).2.1.map ExtractedToolCall.id).Nodup ∧
    (normalizeToolCalls repUuids 0 c5MixedCalls).2.1.length = c5MixedCalls.length ∧
    (toolResponseMessages (normalizeToolCalls repUuids 0 c5MixedCalls).2.1
        (gatherResults (fun tc => twoToolAgent.execute_tool tc.name tc.arguments)
          (normalizeToolCalls repUuids 0 c5MixedCalls).2.1 [1, 0])).map
        Message.tool_call_id =
      (normalizeToolCalls repUuids 0 c5MixedCalls).2.1.map
        (fun tc => some (tc.id.getD "")) ∧
    (toolResponseMessages (normalizeToolCalls repUuids 0 c5MixedCalls).2.1
        (gatherResults (fun tc => twoToolAgent.execute_tool tc.name tc.arguments)
          (normalizeToolCalls repUuids 0 c5MixedCalls).2.1 [1, 0])).length =
      c5MixedCalls.length :=
  tool_call_ids_normalized_and_referenced twoToolAgent repUuids 0 c5MixedCalls [1, 0]
    (by decide)
    (by
      intro m n h
      have hd : List.replicate (m + 1) 'u' = List.replicate (n + 1) 'u' :=
        congrArg String.data h
      have hl := congrArg List.length hd
      simp only [List.length_replicate] at hl
      omega)
    (by
      intro n hmem
      have heq : "call_" ++ repUuids n = "given" := by
        simpa [providedIds, c5MixedCalls] using hmem
      have hl := congrArg String.length heq
      rw [String.length_append] at hl
      have h1 : "call_".length = 5 := rfl
      have h2 : "given".length = 5 := rfl
      have h3 : (repUuids n).length = n + 1 := by
        have h4 : (repUuids n).length = (List.replicate (n + 1) 'u').length := rfl
        rw [h4, List.length_replicate]
      rw [h1, h2, h3] at hl
      omega)

/-- C5 counterexample: the claim as stated fails on the code — when the
backend supplies the same non-empty id twice in one turn, normalization
keeps both copies, so the post-normalization ids are not unique even
though some request of the list lacked an id. -/
theorem duplicate_backend_ids_survive_normalization :
    (c5DupCalls.any (fun tc => tc.id == none || tc.id == some "")) = true ∧
    ¬ (((normalizeToolCalls natUuids 0 c5DupCalls).2.1.map
        ExtractedToolCall.id).Nodup) := by
  exact ⟨by decide, by decide⟩

lemma dedupKeepFirst_subset : ∀ (n : Nat) (l : List String), l.length ≤ n →
    ∀ x ∈ dedupKeepFirst l, x ∈ l := by
  intro n
  induction n with
  | zero =>
    intro l hl x hx
    rw [List.length_eq_zero.mp (Nat.le_zero.mp hl)] at hx ⊢
    simp [dedupKeepFirst] at hx
  | succ n ih =>
    intro l hl x hx
    cases l with
    | nil => simp [dedupKeepFirst] at hx
    | cons a as =>
      rw [dedupKeepFirst] at hx
      rcases List.mem_cons.mp hx with rfl | hx
      · exact List.mem_cons_self _ _
      · have hlen : (as.filter (fun y => !(y == a))).length ≤ n :=
          le_trans (List.length_filter_le _ _) (Nat.le_of_succ_le_succ hl)
        exact List.mem_cons_of_mem _ (List.mem_of_mem_filter (ih _ hlen x hx))

lemma dedupKeepFirst_nodup : ∀ (n : Nat) (l : List String), l.length ≤ n →
    (dedupKeepFirst l).Nodup := by
  intro n
  induction n with
  | zero =>
    intro l hl
    rw [List.length_eq_zero.mp (Nat.le_zero.mp hl)]
    simp [dedupKeepFirst]
  | succ n ih =>
    intro l hl
    cases l with
    | nil => simp [dedupKeepFirst]
    | cons a as =>
      rw [dedupKeepFirst]
      have hlen : (as.filter (fun y => !(y == a))).length ≤ n :=
        le_trans (List.length_filter_le _ _) (Nat.le_of_succ_le_succ hl)
      refine List.Nodup.cons ?_ (ih _ hlen)
      intro hmem
      have := List.of_mem_filter (dedupKeepFirst_subset n _ hlen a hmem)
      simp at this

lemma foldl_step_dedup :
    ∀ (l acc : List String),
      l.foldl (fun acc p => if acc.contains p then acc else acc ++ [p]) acc =
        acc ++ dedupKeepFirst (l.filter (fun y => !(acc.contains y))) := by
  intro l
  induction l with
  | nil => intro acc; simp [dedupKeepFirst]
  | cons x xs ih =>
    intro acc
    by_cases hx : acc.contains x = true
    · rw [List.foldl_cons, if_pos hx, List.filter_cons, if_neg (by rw [hx]; simp)]
      exact ih acc
    · have hx' : acc.contains x = false := by
        cases h : acc.contains x
        · rfl
        · exact absurd h hx
      rw [List.foldl_cons, if_neg hx, List.filter_cons,
        if_pos (by rw [hx']; rfl), ih (acc ++ [x]), dedupKeepFirst]
      have hfil : xs.filter (fun y => !((acc ++ [x]).contains y)) =
          (xs.filter (fun y => !(acc.contains y))).filter (fun y => !(y == x)) := by
        rw [List.filter_filter]
        apply List.filter_congr
        intro y _
        have hca : ((acc ++ [x]).contains y) = (acc.contains y || (y == x)) := by
          cases hyp : (y == x)
          · have hne : ¬(y = x) := by simpa using hyp
            simp [hne]
          · have heq : y = x := by simpa using hyp
            simp [heq]
        rw [hca, Bool.not_or]
        cases (!(acc.contains y)) <;> cases (!(y == x)) <;> rfl
      rw [hfil]
      simp

lemma providersToTry_eq_dedup (provider : Option String) (fo : List String) :
    providersToTry provider fo = dedupKeepFirst (pyTruthyList provider ++ fo) := by
  have hnil : fo.foldl
      (fun acc p => if acc.contains p then acc else acc ++ [p]) [] =
      dedupKeepFirst ([] ++ fo) := by
    rw [foldl_step_dedup]
    simp
  have hone : ∀ p : String, fo.foldl
      (fun acc p => if acc.contains p then acc else acc ++ [p]) [p] =
      dedupKeepFirst ([p] ++ fo) := by
    intro p
    rw [foldl_step_dedup]
    show [p] ++ dedupKeepFirst (fo.filter fun y => !([p].contains y)) =
      dedupKeepFirst (p :: fo)
    rw [dedupKeepFirst]
    have : (fo.filter fun y => !([p].contains y)) = fo.filter (fun y => !(y == p)) := by
      apply List.filter_congr
      intro y _
      have : ([p].contains y) = (y == p) := by
        cases hyp : (y == p)
        · have hne : ¬(y = p) := by simpa using hyp
          simp [hne]
        · have heq : y = p := by simpa using hyp
          simp [heq]
      rw [this]
    rw [this]
    rfl
  cases provider with
  | none => exact hnil
  | some p =>
    show List.foldl (fun acc q => if acc.contains q then acc else acc ++ [q])
        (if p == "" then [] else [p]) fo =
      dedupKeepFirst ((if p == "" then [] else [p]) ++ fo)
    by_cases hp : (p == "") = true
    · rw [if_pos hp]
      exact hnil
    · rw [if_neg hp]
      exact hone p

lemma mem_dropLast_cons {α : Type} (a : α) (l : List α) (x : α)
    (hx : x ∈ (a :: l).dropLast) : (x = a ∧ l ≠ []) ∨ x ∈ l.dropLast := by
  cases l with
  | nil => simp at hx
  | cons b bs =>
    rw [List.dropLast_cons₂] at hx
    rcases List.mem_cons.mp hx with rfl | hx
    · exact Or.inl ⟨rfl, by simp⟩
    · exact Or.inr hx

/-- Characterization of the failover loop of `generate`: the attempts
extend the accumulator by a prefix of the registered candidates, all
attempts but the last failed, the error list records exactly the
failures in order, each attempt uses its prescribed model and is its
provider's own outcome, a success is the last attempt's response, and
total failure raises `AllProvidersFailedError` after attempting every
registered candidate and emits the error list on the bus. -/
lemma tryProvidersG_char (r : LLMRouter) (messages : List Message)
    (orig : Option String) (model : Option String) (temperature : Rat)
    (max_tokens : Nat) (tools : Option (List ToolSchema)) :
    ∀ (cands errors : List String) (attempts : List Attempt),
      ∃ tail : List Attempt,
        (tryProvidersG r messages orig model temperature max_tokens tools cands errors
          attempts).attempts = attempts ++ tail ∧
        (tryProvidersG r messages orig model temperature max_tokens tools cands errors
          attempts).errors = errors ++ tail.filterMap errEntry ∧
        tail.map Attempt.provider <+: registeredCandidates r cands ∧
        (∀ att ∈ tail.dropLast, ∃ e, att.outcome = .error e) ∧
        (∀ att ∈ tail,
          att.model = (if some att.provider == orig then model
            else some (failoverUseModel r messages att.provider)) ∧
          ∃ prov, lookupProv r.providers att.provider = some prov ∧
            att.outcome = prov.generate
              { messages := messages, model := att.model, temperature := temperature,
                max_tokens := max_tokens, tools := tools }) ∧
        (∀ resp, (tryProvidersG r messages orig model temperature max_tokens tools cands
            errors attempts).result = .ok resp →
          tail.getLast?.map Attempt.outcome = some (.ok resp)) ∧
        (∀ e, (tryProvidersG r messages orig model temperature max_tokens tools cands
            errors attempts).result = .error e →
          e = .allProvidersFailed ∧
          tail.map Attempt.provider = registeredCandidates r cands ∧
          (∀ att ∈ tail, ∃ e', att.outcome = .error e') ∧
          (tryProvidersG r messages orig model temperature max_tokens tools cands errors
            attempts).events =
            [.llm_error ((tryProvidersG r messages orig model temperature max_tokens tools
              cands errors attempts).errors)]) := by
  intro cands
  induction cands with
  | nil =>
    intro errors attempts
    refine ⟨[], by simp [tryProvidersG], by simp [tryProvidersG], ?_, ?_, ?_, ?_, ?_⟩
    · simp [registeredCandidates]
    · intro att h; simp at h
    · intro att h; simp at h
    · intro resp h; simp [tryProvidersG] at h
    · intro e h
      refine ⟨by simpa [tryProvidersG] using h.symm, by simp [registeredCandidates], ?_, ?_⟩
      · intro att h'; simp at h'
      · simp [tryProvidersG]
  | cons c rest ih =>
    intro errors attempts
    rcases hlook : lookupProv r.providers c with _ | prov
    · -- unregistered candidate: skipped without an attempt
      obtain ⟨tail, h1, h2, h3, h4, h5, h6, h7⟩ := ih errors attempts
      have hreg : registeredCandidates r (c :: rest) = registeredCandidates r rest := by
        simp [registeredCandidates, hlook]
      have hstep : tryProvidersG r messages orig model temperature max_tokens tools
          (c :: rest) errors attempts =
          tryProvidersG r messages orig model temperature max_tokens tools rest errors
            attempts := by
        simp only [tryProvidersG, hlook]
      rw [hstep, hreg]
      exact ⟨tail, h1, h2, h3, h4, h5, h6, h7⟩
    · have hreg : registeredCandidates r (c :: rest) =
          c :: registeredCandidates r rest := by
        simp [registeredCandidates, hlook]
      rcases houtcome : prov.generate
          { messages := messages,
            model := if some c == orig then model
              else some (failoverUseModel r messages c),
            temperature := temperature, max_tokens := max_tokens,
            tools := tools } with e0 | resp0
      · -- this candidate raises: its error is recorded and the loop continues
        set att : Attempt :=
          ⟨c, if some c == orig then model else some (failoverUseModel r messages c),
            .error e0⟩ with hatt
        have hstep : tryProvidersG r messages orig model temperature max_tokens tools
            (c :: rest) errors attempts =
            tryProvidersG r messages orig model temperature max_tokens tools rest
              (errors ++ [renderErr c e0]) (attempts ++ [att]) := by
          simp only [tryProvidersG, hlook, houtcome, hatt]
        obtain ⟨tail, h1, h2, h3, h4, h5, h6, h7⟩ :=
          ih (errors ++ [renderErr c e0]) (attempts ++ [att])
        refine ⟨att :: tail, ?_, ?_, ?_, ?_, ?_, ?_, ?_⟩
        · rw [hstep, h1]; simp
        · rw [hstep, h2]
          have : errEntry att = some (renderErr c e0) := rfl
          simp [this]
        · rw [hreg]
          obtain ⟨t, ht⟩ := h3
          exact ⟨t, by simp [← ht]⟩
        · intro a ha
          rcases mem_dropLast_cons att tail a ha with ⟨rfl, _⟩ | ha'
          · exact ⟨e0, rfl⟩
          · exact h4 a ha'
        · intro a ha
          rcases List.mem_cons.mp ha with rfl | ha'
          · exact ⟨rfl, prov, hlook, houtcome.symm⟩
          · exact h5 a ha'
        · intro resp hres
          rw [hstep] at hres
          have := h6 resp hres
          cases tail with
          | nil => simp at this
          | cons b bs => rw [List.getLast?_cons_cons]; exact this
        · intro e hres
          rw [hstep] at hres
          obtain ⟨he, hmap, hall, hev⟩ := h7 e hres
          refine ⟨he, ?_, ?_, ?_⟩
          · rw [hreg]; simp [hmap]
          · intro a ha
            rcases List.mem_cons.mp ha with rfl | ha'
            · exact ⟨e0, rfl⟩
            · exact hall a ha'
          · rw [hstep]; exact hev
      · -- this candidate succeeds: return immediately
        set att : Attempt :=
          ⟨c, if some c == orig then model else some (failoverUseModel r messages c),
            .ok resp0⟩ with hatt
        have hstep : tryProvidersG r messages orig model temperature max_tokens tools
            (c :: rest) errors attempts =
            { result := .ok resp0, errors := errors,
              attempts := attempts ++ [att],
              events := [.llm_response c resp0.model resp0.tokens_used
                resp0.latency_ms] } := by
          simp only [tryProvidersG, hlook, houtcome, hatt]
        refine ⟨[att], ?_, ?_, ?_, ?_, ?_, ?_, ?_⟩
        · rw [hstep]
        · rw [hstep]
          have : errEntry att = none := rfl
          simp [this]
        · rw [hreg]; exact ⟨registeredCandidates r rest, rfl⟩
        · intro a ha; simp at ha
        · intro a ha
          rcases List.mem_cons.mp ha with rfl | ha'
          · exact ⟨rfl, prov, hlook, houtcome.symm⟩
          · simp at ha'
        · intro resp hres
          rw [hstep] at hres
          simp only at hres
          cases hres
          rfl
        · intro e hres
          rw [hstep] at hres
          simp at hres

lemma lookupProv_mem (ps : List (String × BaseLLMProvider)) (n : String)
    (prov : BaseLLMProvider) (h : lookupProv ps n = some prov) : (n, prov) ∈ ps := by
  unfold lookupProv at h
  obtain ⟨q, hq1, hq2⟩ := Option.map_eq_some'.mp h
  have hqn : q.1 = n := by simpa using List.find?_some hq1
  have hmem := List.mem_of_find?_eq_some hq1
  have : q = (n, prov) := by
    cases q
    simp only at hqn hq2
    rw [hqn, hq2]
  rwa [this] at hmem

lemma filterMap_errEntry_length :
    ∀ tail : List Attempt, (∀ att ∈ tail, ∃ e', att.outcome = .error e') →
      (tail.filterMap errEntry).length = tail.length := by
  intro tail
  induction tail with
  | nil => intro _; rfl
  | cons a as ih =>
    intro h
    obtain ⟨e', he'⟩ := h a (List.mem_cons_self _ _)
    have : errEntry a = some (renderErr a.provider e') := by
      unfold errEntry
      rw [he']
    rw [List.filterMap_cons, this]
    simp [ih (fun att hm => h att (List.mem_cons_of_mem _ hm))]

lemma getLast?_mem {α : Type} : ∀ (l : List α) (a : α), l.getLast? = some a → a ∈ l := by
  intro l
  induction l with
  | nil => intro a h; cases h
  | cons b bs ih =>
    intro a h
    cases bs with
    | nil =>
      have : a = b := by simpa [List.getLast?] using h.symm
      rw [this]
      exact List.mem_cons_self _ _
    | cons c cs =>
      rw [List.getLast?_cons_cons] at h
      exact List.mem_cons_of_mem _ (ih a h)

/-- C1: `generate` builds the candidate list as the resolved provider
followed by the failover order with duplicates removed (first occurrence
kept); the registered candidates are tried strictly in that order, each
invoked at most once; the first success is returned immediately; every
failing candidate has its error recorded (in order) and the next one is
tried; total failure attempts every registered candidate. -/
theorem generate_failover_order (r : LLMRouter) (messages : List Message)
    (provider model : Option String) (temperature : Option Rat)
    (max_tokens : Option Nat) (tools : Option (List ToolSchema)) (auto_route : Bool) :
    generateCandidates r provider =
      dedupKeepFirst (pyTruthyList (resolvedProvider r provider) ++ r.failover_order) ∧
    (generateCandidates r provider).Nodup ∧
    ((r.generate messages provider model temperature max_tokens tools
        auto_route).attempts.map Attempt.provider) <+:
      registeredCandidates r (generateCandidates r provider) ∧
    ((r.generate messages provider model temperature max_tokens tools
        auto_route).attempts.map Attempt.provider).Nodup ∧
    (∀ att ∈ (r.generate messages provider model temperature max_tokens tools
        auto_route).attempts.dropLast, ∃ e, att.outcome = .error e) ∧
    (∀ resp, (r.generate messages provider model temperature max_tokens tools
        auto_route).result = .ok resp →
      (r.generate messages provider model temperature max_tokens tools
        auto_route).attempts.getLast?.map Attempt.outcome = some (.ok resp)) ∧
    (∀ e, (r.generate messages provider model temperature max_tokens tools
        auto_route).result = .error e →
      e = .allProvidersFailed ∧
      (r.generate messages provider model temperature max_tokens tools
        auto_route).attempts.map Attempt.provider =
        registeredCandidates r (generateCandidates r provider) ∧
      ∀ att ∈ (r.generate messages provider model temperature max_tokens tools
        auto_route).attempts, ∃ e', att.outcome = .error e') ∧
    (r.generate messages provider model temperature max_tokens tools auto_route).errors =
      (r.generate messages provider model temperature max_tokens tools
        auto_route).attempts.filterMap errEntry := by
  obtain ⟨tail, h1, h2, h3, h4, h5, h6, h7⟩ :=
    tryProvidersG_char r messages (resolvedProvider r provider)
      (resolvedModel r messages provider model auto_route)
      (temperature.getD r.settings.temperature) (max_tokens.getD r.settings.max_tokens)
      tools (generateCandidates r provider) [] []
  have hAtt : (r.generate messages provider model temperature max_tokens tools
      auto_route).attempts =
      (tryProvidersG r messages (resolvedProvider r provider)
        (resolvedModel r messages provider model auto_route)
        (temperature.getD r.settings.temperature) (max_tokens.getD r.settings.max_tokens)
        tools (generateCandidates r provider) [] []).attempts := rfl
  have hErr : (r.generate messages provider model temperature max_tokens tools
      auto_route).errors =
      (tryProvidersG r messages (resolvedProvider r provider)
        (resolvedModel r messages provider model auto_route)
        (temperature.getD r.settings.temperature) (max_tokens.getD r.settings.max_tokens)
        tools (generateCandidates r provider) [] []).errors := rfl
  have hRes : (r.generate messages provider model temperature max_tokens tools
      auto_route).result =
      (tryProvidersG r messages (resolvedProvider r provider)
        (resolvedModel r messages provider model auto_route)
        (temperature.getD r.settings.temperature) (max_tokens.getD r.settings.max_tokens)
        tools (generateCandidates r provider) [] []).result := rfl
  have hTail : (r.generate messages provider model temperature max_tokens tools
      auto_route).attempts = tail := by rw [hAtt, h1]; rfl
  have hDedup : generateCandidates r provider =
      dedupKeepFirst (pyTruthyList (resolvedProvider r provider) ++ r.failover_order) :=
    providersToTry_eq_dedup (resolvedProvider r provider) r.failover_order
  have hCNodup : (generateCandidates r provider).Nodup := by
    rw [hDedup]
    exact dedupKeepFirst_nodup _ _ (le_refl _)
  refine ⟨hDedup, hCNodup, ?_, ?_, ?_, ?_, ?_, ?_⟩
  · rw [hTail]; exact h3
  · rw [hTail]
    exact ((hCNodup.filter _).sublist h3.sublist)
  · rw [hTail]; exact h4
  · intro resp hres
    rw [hTail]
    exact h6 resp (hRes ▸ hres)
  · intro e hres
    obtain ⟨he, hmap, hall, _⟩ := h7 e (hRes ▸ hres)
    rw [hTail]
    exact ⟨he, hmap, hall⟩
  · rw [hErr, hTail, h2]
    rfl

/-- C1 witness: the spec's scenario — A rate-limits, B raises an LLM
error, C succeeds — attempts exactly A, B, C in order, records both
errors, and returns C's response. -/
theorem generate_failover_order_witness :
    c1Out.attempts.getLast?.map Attempt.outcome = some (.ok c1Resp) ∧
    c1Out.errors = ["groq: Rate limited", "gemini: gem down"] ∧
    c1Out.attempts.map Attempt.provider = ["groq", "gemini", "ollama"] := by
  have h := generate_failover_order c1Router [Message.user "hi"] none none none none
    none true
  exact ⟨h.2.2.2.2.2.1 c1Resp rfl, rfl, rfl⟩

/-- C2 (amended): when every registered provider raises on every request,
`generate` raises `AllProvidersFailedError` (a fixed exception carrying no
per-provider data) and never returns a response; the per-provider error
list is recorded, one entry per registered candidate, and emitted on the
bus in the `LLM_ERROR` event. -/
theorem all_providers_failed_raises (r : LLMRouter) (messages : List Message)
    (provider model : Option String) (temperature : Option Rat)
    (max_tokens : Option Nat) (tools : Option (List ToolSchema)) (auto_route : Bool)
    (hfail : ∀ p prov, (p, prov) ∈ r.providers →
      ∀ req, ∃ e, prov.generate req = .error e) :
    (r.generate messages provider model temperature max_tokens tools auto_route).result =
      .error PyErr.allProvidersFailed ∧
    (∀ resp, (r.generate messages provider model temperature max_tokens tools
      auto_route).result ≠ .ok resp) ∧
    (r.generate messages provider model temperature max_tokens tools
        auto_route).errors.length =
      (registeredCandidates r (generateCandidates r provider)).length ∧
    Ev.llm_error ((r.generate messages provider model temperature max_tokens tools
        auto_route).errors) ∈
      (r.generate messages provider model temperature max_tokens tools
        auto_route).events := by
  obtain ⟨tail, h1, h2, h3, h4, h5, h6, h7⟩ :=
    tryProvidersG_char r messages (resolvedProvider r provider)
      (resolvedModel r messages provider model auto_route)
      (temperature.getD r.settings.temperature) (max_tokens.getD r.settings.max_tokens)
      tools (generateCandidates r provider) [] []
  have hRes : (r.generate messages provider model temperature max_tokens tools
      auto_route).result =
      (tryProvidersG r messages (resolvedProvider r provider)
        (resolvedModel r messages provider model auto_route)
        (temperature.getD r.settings.temperature) (max_tokens.getD r.settings.max_tokens)
        tools (generateCandidates r provider) [] []).result := rfl
  have hnotok : ∀ resp, (r.generate messages provider model temperature max_tokens tools
      auto_route).result ≠ .ok resp := by
    intro resp hres
    have hlast := h6 resp (hRes ▸ hres)
    cases hL : tail.getLast? with
    | none => rw [hL] at hlast; simp at hlast
    | some attL =>
      have hmemL : attL ∈ tail := getLast?_mem tail attL hL
      obtain ⟨_, prov, hplook, hout⟩ := h5 attL hmemL
      obtain ⟨e', he'⟩ := hfail attL.provider prov
        (lookupProv_mem r.providers attL.provider prov hplook)
        { messages := messages, model := attL.model,
          temperature := temperature.getD r.settings.temperature,
          max_tokens := max_tokens.getD r.settings.max_tokens, tools := tools }
      rw [hL] at hlast
      have hok : attL.outcome = .ok resp := by simpa using hlast
      exact absurd (he'.symm.trans (hout.symm.trans hok)) (by simp)
  have hex : ∃ e, (r.generate messages provider model temperature max_tokens tools
      auto_route).result = .error e := by
    rcases hq : (r.generate messages provider model temperature max_tokens tools
        auto_route).result with e | resp
    · exact ⟨e, rfl⟩
    · exact absurd hq (hnotok resp)
  obtain ⟨e, hres⟩ := hex
  obtain ⟨he, hmap, hall, hev⟩ := h7 e (hRes ▸ hres)
  subst he
  have hTail : (r.generate messages provider model temperature max_tokens tools
      auto_route).attempts = tail := by
    have hAtt : (r.generate messages provider model temperature max_tokens tools
        auto_route).attempts =
        (tryProvidersG r messages (resolvedProvider r provider)
          (resolvedModel r messages provider model auto_route)
          (temperature.getD r.settings.temperature)
          (max_tokens.getD r.settings.max_tokens)
          tools (generateCandidates r provider) [] []).attempts := rfl
    rw [hAtt, h1]; rfl
  refine ⟨hres, hnotok, ?_, ?_⟩
  · have hErr : (r.generate messages provider model temperature max_tokens tools
        auto_route).errors = tail.filterMap errEntry := by
      have hE : (r.generate messages provider model temperature max_tokens tools
          auto_route).errors =
          (tryProvidersG r messages (resolvedProvider r provider)
            (resolvedModel r messages provider model auto_route)
            (temperature.getD r.settings.temperature)
            (max_tokens.getD r.settings.max_tokens)
            tools (generateCandidates r provider) [] []).errors := rfl
      rw [hE, h2]; rfl
    rw [hErr, filterMap_errEntry_length tail hall, ← hmap, List.length_map]
  · have hEv : (r.generate messages provider model temperature max_tokens tools
        auto_route).events =
        Ev.llm_request (resolvedProvider r provider)
          (resolvedModel r messages provider model auto_route) messages.length ::
        (tryProvidersG r messages (resolvedProvider r provider)
          (resolvedModel r messages provider model auto_route)
          (temperature.getD r.settings.temperature)
          (max_tokens.getD r.settings.max_tokens)
          tools (generateCandidates r provider) [] []).events := rfl
    rw [hEv, hev]
    exact List.mem_cons_of_mem _ (List.mem_singleton.mpr (by rfl))

/-- C2 witness: a concrete router whose two providers always raise ends
with `AllProvidersFailedError` and the error list emitted on the bus. -/
theorem all_providers_failed_raises_witness :
    c2RunA.result = Except.error PyErr.allProvidersFailed ∧
    Ev.llm_error c2RunA.errors ∈ c2RunA.events := by
  have h := all_providers_failed_raises c2RouterA [Message.user "hi"] none none none
    none none true
    (by
      intro p prov hmem req
      simp only [c2RouterA, List.mem_cons, List.mem_singleton] at hmem
      rcases hmem with h' | h' | h'
      · injection h' with hp hprov
        subst hprov
        exact ⟨.llm "boom one", rfl⟩
      · injection h' with hp hprov
        subst hprov
        exact ⟨.llm "boom two", rfl⟩
      · cases h')
  exact ⟨h.1, h.2.2.2⟩

/-- C2 counterexample: the raised exception is one and the same constant
value for runs whose per-provider error lists differ, so the exception
cannot be carrying the per-provider error list — that list is only
recorded internally and emitted on the bus. -/
theorem exception_does_not_carry_error_list :
    c2RunA.errors = ["groq: boom one", "gemini: boom two"] ∧
    c2RunB.errors = ["groq: other cause", "gemini: Rate limited"] ∧
    c2RunA.errors ≠ c2RunB.errors ∧
    c2RunA.result = Except.error PyErr.allProvidersFailed ∧
    c2RunB.result = Except.error PyErr.allProvidersFailed := by
  exact ⟨rfl, rfl, by decide, rfl, rfl⟩

/-- The model used for each candidate of the `stream` failover loop: the
originally resolved provider gets the (auto-routed) call model, every
other candidate gets that provider's configured default model. -/
lemma tryProvidersS_models (r : LLMRouter) (messages : List Message)
    (orig model : Option String) (temperature : Rat) (max_tokens : Nat) :
    ∀ (cands : List String) (yielded : List StreamChunk) (events : List Ev)
      (attempts : List StreamAttempt),
      ∀ att ∈ (tryProvidersS r messages orig model temperature max_tokens cands yielded
          events attempts).attempts,
        att ∈ attempts ∨
        att.model = (if some att.provider == orig then model
          else some (r.get_default_model att.provider)) := by
  intro cands
  induction cands with
  | nil =>
    intro y ev a att h
    simp only [tryProvidersS] at h
    exact Or.inl h
  | cons c rest ih =>
    intro y ev a att h
    rcases hlook : lookupProv r.providers c with _ | prov
    · rw [show tryProvidersS r messages orig model temperature max_tokens (c :: rest) y ev
          a = tryProvidersS r messages orig model temperature max_tokens rest y ev a
        from by simp only [tryProvidersS, hlook]] at h
      exact ih y ev a att h
    · simp only [tryProvidersS, hlook] at h
      rcases hr2 : (prov.streamRun
          { messages := messages,
            model := if some c == orig then model
              else some (r.get_default_model c),
            temperature := temperature, max_tokens := max_tokens }).2 with _ | e0
      · rw [hr2] at h
        simp only at h
        rcases List.mem_append.mp h with hl | hr
        · exact Or.inl hl
        · have : att = ⟨c, if some c == orig then model
              else some (r.get_default_model c)⟩ := by simpa using hr
          rw [this]
          exact Or.inr rfl
      · rw [hr2] at h
        simp only at h
        rcases hcaught : (e0.isRateLimit || e0.isLLMError) with _ | _
        · rw [hcaught] at h
          simp only [Bool.false_eq_true, if_false] at h
          rcases List.mem_append.mp h with hl | hr
          · exact Or.inl hl
          · have : att = ⟨c, if some c == orig then model
                else some (r.get_default_model c)⟩ := by simpa using hr
            rw [this]
            exact Or.inr rfl
        · rw [hcaught] at h
          simp only [if_true] at h
          rcases ih _ _ _ att h with hl | hr
          · rcases List.mem_append.mp hl with hl' | hr'
            · exact Or.inl hl'
            · have : att = ⟨c, if some c == orig then model
                  else some (r.get_default_model c)⟩ := by simpa using hr'
              rw [this]
              exact Or.inr rfl
          · exact Or.inr hr

/-- C3 (amended): in `generate`, a failover candidate other than the
originally resolved provider gets the tier model re-derived for that
provider from the latest plain-string user message (falling back to that
provider's default model when the tier table has no entry); in `stream`,
a failover candidate simply gets that provider's configured default
model.  In neither function is the originally requested provider's
(possibly auto-routed) model id reused for another provider; that model
is used only for the originally resolved provider itself. -/
theorem failover_model_selection (r : LLMRouter) (messages : List Message)
    (provider model : Option String) (temperature : Option Rat)
    (max_tokens : Option Nat) (tools : Option (List ToolSchema)) (auto_route : Bool) :
    (∀ att ∈ (r.generate messages provider model temperature max_tokens tools
        auto_route).attempts,
      att.model = if some att.provider == resolvedProvider r provider
        then resolvedModel r messages provider model auto_route
        else some (failoverUseModel r messages att.provider)) ∧
    (∀ att ∈ (r.stream messages provider model temperature max_tokens
        auto_route).attempts,
      att.model = if some att.provider == resolvedProvider r provider
        then resolvedModel r messages provider model auto_route
        else some (r.get_default_model att.provider)) := by
  constructor
  · intro att hmem
    obtain ⟨tail, h1, _, _, _, h5, _, _⟩ :=
      tryProvidersG_char r messages (resolvedProvider r provider)
        (resolvedModel r messages provider model auto_route)
        (temperature.getD r.settings.temperature)
        (max_tokens.getD r.settings.max_tokens)
        tools (generateCandidates r provider) [] []
    have hAtt : (r.generate messages provider model temperature max_tokens tools
        auto_route).attempts = tail := by
      have : (r.generate messages provider model temperature max_tokens tools
          auto_route).attempts =
          (tryProvidersG r messages (resolvedProvider r provider)
            (resolvedModel r messages provider model auto_route)
            (temperature.getD r.settings.temperature)
            (max_tokens.getD r.settings.max_tokens)
            tools (generateCandidates r provider) [] []).attempts := rfl
      rw [this, h1]; rfl
    rw [hAtt] at hmem
    exact (h5 att hmem).1
  · intro att hmem
    have hAtt : (r.stream messages provider model temperature max_tokens
        auto_route).attempts =
        (tryProvidersS r messages (resolvedProvider r provider)
          (resolvedModel r messages provider model auto_route)
          (temperature.getD r.settings.temperature)
          (max_tokens.getD r.settings.max_tokens)
          (generateCandidates r provider) [] [] []).attempts := rfl
    rw [hAtt] at hmem
    rcases tryProvidersS_models r messages (resolvedProvider r provider)
        (resolvedModel r messages provider model auto_route)
        (temperature.getD r.settings.temperature)
        (max_tokens.getD r.settings.max_tokens)
        (generateCandidates r provider) [] [] [] att hmem with hl | hr
    · cases hl
    · exact hr

/-- C3 witness: the failed-over `stream` attempt on gemini carries the
model prescribed for a failover candidate (gemini's configured default). -/
theorem failover_model_selection_witness :
    (⟨"gemini", some "gemini-2.5-flash"⟩ : StreamAttempt) ∈ c3Run.attempts ∧
    (⟨"gemini", some "gemini-2.5-flash"⟩ : StreamAttempt).model =
      (if some "gemini" == resolvedProvider c3Router none
       then resolvedModel c3Router [Message.user "compare React vs Vue"] none none true
       else some (c3Router.get_default_model "gemini")) := by
  refine ⟨by decide, ?_⟩
  exact (failover_model_selection c3Router [Message.user "compare React vs Vue"]
    none none none none none true).2 ⟨"gemini", some "gemini-2.5-flash"⟩ (by decide)

/-- C3 counterexample: on failover, `stream` uses the failover provider's
configured default model, not the tier-correct model: for a complex query
the tier-correct gemini model is `gemini-2.5-pro`, but the failed-over
stream attempt uses `gemini-2.5-flash`. -/
theorem stream_failover_ignores_tier_model :
    c3Run.attempts = [⟨"groq", some "moonshotai/kimi-k2-instruct-0905"⟩,
      ⟨"gemini", some "gemini-2.5-flash"⟩] ∧
    TIER_MODELS (classify_query "compare React vs Vue" false) "gemini" =
      some "gemini-2.5-pro" ∧
    (some "gemini-2.5-flash" : Option String) ≠ some "gemini-2.5-pro" := by
  exact ⟨rfl, by decide, by decide⟩

end HolexBeast
